import Mathlib

/-!
Verification development for the neurocode structural code-intelligence engine.

Python strings are modelled as `List Char`, Python integers as `Int`,
`None`-able values as `Option`, and code that can raise as `Except String`.
Each definition names the source function it embeds (file and, where useful,
line numbers refer to the repository sources).
-/

namespace Neurocode

/-- Python `str` is modelled as a list of characters. -/
abbrev Str := List Char

/-- Characters treated as whitespace by Python `str.strip()` (the ASCII ones;
the sources only ever strip spaces, tabs and newlines). -/
def isPySpace (c : Char) : Bool :=
  c = ' ' || c = '\t' || c = '\n' || c = '\r' || c = '\x0b' || c = '\x0c'

/-- Python `str.lstrip()`. -/
def pyLstrip (s : Str) : Str := s.dropWhile isPySpace

/-- Python `str.rstrip()`. -/
def pyRstrip (s : Str) : Str := (s.reverse.dropWhile isPySpace).reverse

/-- Python `str.strip()`. -/
def pyStrip (s : Str) : Str := pyRstrip (pyLstrip s)

/-- Python `str.rstrip(chars)` restricted to a single character. -/
def pyRstripChar (c : Char) (s : Str) : Str :=
  (s.reverse.dropWhile (fun d => d = c)).reverse

/-- Python `s.startswith(p)`. -/
def strStartsWith : Str → Str → Bool
  | _, [] => true
  | [], _ :: _ => false
  | c :: cs, p :: ps => c = p && strStartsWith cs ps

/-- Python `s.endswith(p)`. -/
def strEndsWith (s p : Str) : Bool := strStartsWith s.reverse p.reverse

/-- Python `s.split(sep, 1)` for a one-character separator, in the shape the
sources use it: `a, b = s.split(sep, 1)` succeeds only when `sep` occurs. -/
def splitOnceChar (sep : Char) : Str → Option (Str × Str)
  | [] => none
  | c :: cs =>
    if c = sep then some ([], cs)
    else (splitOnceChar sep cs).map (fun p => (c :: p.1, p.2))

/-- Loop of a full `s.split(sep)`: accumulate the current segment, emit it at
each separator. -/
def splitAllCharGo (sep : Char) : Str → Str → List Str
  | [], cur => [cur]
  | c :: cs, cur =>
    if c = sep then cur :: splitAllCharGo sep cs []
    else splitAllCharGo sep cs (cur ++ [c])

/-- Python `s.split(sep)` (full split) for a one-character separator;
`"".split(sep)` is `[""]`. -/
def splitAllChar (sep : Char) (s : Str) : List Str := splitAllCharGo sep s []

/-! ## TOON cell escaping (toon_serialize.py / toon_parse.py) -/

/-- Python `value.replace(old, new)` for a one-character pattern `old`. -/
def replaceChar (old : Char) (new : Str) : Str → Str
  | [] => []
  | c :: cs => (if c = old then new else [c]) ++ replaceChar old new cs

/-- Python `value.replace(old, new)` for a two-character pattern `[a, b]`
(left-to-right, non-overlapping, as `str.replace` scans). -/
def replacePair (a b : Char) (new : Str) : Str → Str
  | [] => []
  | [c] => [c]
  | c :: d :: cs =>
    if c = a ∧ d = b then new ++ replacePair a b new cs
    else c :: replacePair a b new (d :: cs)

/-- `_escape_value` (toon_serialize.py lines 9-17): replace each newline with
backslash-n, then each comma with backslash-comma.  Note the writer does not
escape backslashes. -/
def escapeValue (value : Str) : Str :=
  replaceChar ',' ['\\', ','] (replaceChar '\n' ['\\', 'n'] value)

/-- `_unescape_value` (toon_parse.py lines 18-27): first restore escaped
commas, then newlines. -/
def unescapeValue (value : Str) : Str :=
  replacePair '\\' 'n' ['\n'] (replacePair '\\' ',' [','] value)

/-- Loop of `_parse_row` (toon_parse.py lines 30-54).  `current` is the field
being accumulated; an unescaped comma ends a field, a backslash makes the next
character literal (the backslash itself is dropped), and a trailing backslash
at end of line is dropped with the final field emitted. -/
def parseRowGo : Str → Str → List Str
  | [], current => [current]
  | c :: cs, current =>
    if c = '\\' then
      match cs with
      | [] => [current]
      | d :: cs' => parseRowGo cs' (current ++ [d])
    else if c = ',' then current :: parseRowGo cs []
    else parseRowGo cs (current ++ [c])

/-- `_parse_row` (toon_parse.py lines 30-54). -/
def parseRow (line : Str) : List Str := parseRowGo line []

/-- Python `",".join(fields)` as used by the serializer when emitting a row. -/
def joinComma : List Str → Str
  | [] => []
  | [x] => x
  | x :: xs => x ++ ',' :: joinComma xs

/-- The full row round trip the sources implement: escape each field, join
with commas (serializer side), then split the row and unescape each field
(parser side, `repository_ir_from_toon` applies `_unescape_value` to the
fields returned by `_parse_row`). -/
def rowRoundTrip (fields : List Str) : List Str :=
  (parseRow (joinComma (fields.map escapeValue))).map unescapeValue

/-! ### Row round-trip lemmas -/

theorem replaceChar_of_not_mem {old : Char} {new v : Str} (h : old ∉ v) :
    replaceChar old new v = v := by
  induction v with
  | nil => rfl
  | cons c cs ih =>
    simp only [List.mem_cons, not_or] at h
    rw [replaceChar, if_neg (fun hc => h.1 hc.symm), ih h.2]
    rfl

theorem replacePair_of_not_mem {a b : Char} {new v : Str} (h : a ∉ v) :
    replacePair a b new v = v := by
  induction v with
  | nil => rfl
  | cons c cs ih =>
    cases cs with
    | nil => rfl
    | cons d ds =>
      simp only [List.mem_cons, not_or] at h
      rw [replacePair, if_neg (fun hc => h.1 hc.1.symm),
        ih (by simp only [List.mem_cons, not_or]; exact ⟨h.2.1, h.2.2⟩)]

theorem unescapeValue_of_not_mem {v : Str} (h : '\\' ∉ v) : unescapeValue v = v := by
  rw [unescapeValue, replacePair_of_not_mem h, replacePair_of_not_mem h]

theorem parseRowGo_backslash (d : Char) (cs cur : Str) :
    parseRowGo ('\\' :: d :: cs) cur = parseRowGo cs (cur ++ [d]) := rfl

theorem parseRowGo_comma (cs cur : Str) :
    parseRowGo (',' :: cs) cur = cur :: parseRowGo cs [] := by
  conv_lhs => rw [parseRowGo.eq_def]
  simp

theorem parseRowGo_plain {c : Char} (h1 : ¬c = '\\') (h2 : ¬c = ',') (cs cur : Str) :
    parseRowGo (c :: cs) cur = parseRowGo cs (cur ++ [c]) := by
  conv_lhs => rw [parseRowGo.eq_def]
  simp [h1, h2]

theorem parseRowGo_escaped {f : Str} (h : '\\' ∉ f) :
    ∀ rest cur, parseRowGo (replaceChar ',' ['\\', ','] f ++ rest) cur
      = parseRowGo rest (cur ++ f) := by
  induction f with
  | nil => intro rest cur; simp [replaceChar]
  | cons c cs ih =>
    intro rest cur
    simp only [List.mem_cons, not_or] at h
    by_cases hc : c = ','
    · subst hc
      rw [replaceChar, if_pos rfl]
      show parseRowGo ('\\' :: ',' :: (replaceChar ',' ['\\', ','] cs ++ rest)) cur = _
      rw [parseRowGo_backslash, ih h.2 rest (cur ++ [','])]
      simp
    · rw [replaceChar, if_neg hc]
      show parseRowGo (c :: (replaceChar ',' ['\\', ','] cs ++ rest)) cur = _
      rw [parseRowGo_plain (fun hb => h.1 hb.symm) hc, ih h.2 rest (cur ++ [c])]
      simp

theorem parseRowGo_clean_single {f : Str} (h : '\\' ∉ f) :
    parseRowGo (replaceChar ',' ['\\', ','] f) [] = [f] := by
  have := parseRowGo_escaped h [] []
  rw [List.append_nil] at this
  rw [this]
  rfl

theorem escapeValue_of_clean {f : Str} (hn : '\n' ∉ f) :
    escapeValue f = replaceChar ',' ['\\', ','] f := by
  rw [escapeValue, replaceChar_of_not_mem hn]

/-- C2 counterexample: the row escape/parse pair does not round-trip fields
containing a newline (the parser eats the backslash before `_unescape_value`
runs, leaving a literal `n`); a field holding a lone backslash loses it; and
the empty field list comes back as one empty field.  This refutes the claim
that all fields, in particular those with newlines or backslashes, survive. -/
theorem C2_counterexample :
    rowRoundTrip [['\n']] = [['n']] ∧ rowRoundTrip [['\n']] ≠ [['\n']] ∧
    rowRoundTrip [['\\', 'a']] = [['a']] ∧ rowRoundTrip [] = [[]] := by
  refine ⟨by decide, by decide, by decide, by decide⟩

/-- C2 (amended): encoding each field of a nonempty field list with the
writer's escape rules (which replace newlines and commas but do not double
backslashes), joining with commas, then splitting the row and unescaping
yields the original fields, provided no field contains a newline or a
backslash.  Fields containing commas round-trip; newline or backslash
characters inside a field are corrupted (see the counterexample). -/
theorem C2_row_roundtrip (fields : List Str) (hne : fields ≠ [])
    (hclean : ∀ f ∈ fields, '\n' ∉ f ∧ '\\' ∉ f) :
    rowRoundTrip fields = fields := by
  induction fields with
  | nil => exact absurd rfl hne
  | cons f fs ih =>
    have hf := hclean f (List.mem_cons_self f fs)
    cases fs with
    | nil =>
      rw [rowRoundTrip]
      show (parseRow (joinComma [escapeValue f])).map unescapeValue = [f]
      rw [show joinComma [escapeValue f] = escapeValue f from rfl,
        escapeValue_of_clean hf.1, parseRow, parseRowGo_clean_single hf.2]
      simp [unescapeValue_of_not_mem hf.2]
    | cons g gs =>
      have hrest : rowRoundTrip (g :: gs) = g :: gs :=
        ih (by simp) (fun x hx => hclean x (List.mem_cons_of_mem f hx))
      rw [rowRoundTrip]
      show (parseRow (joinComma (escapeValue f :: escapeValue g
        :: gs.map escapeValue))).map unescapeValue = _
      rw [show joinComma (escapeValue f :: escapeValue g :: gs.map escapeValue)
          = escapeValue f ++ ',' :: joinComma (escapeValue g :: gs.map escapeValue) from rfl,
        parseRow, escapeValue_of_clean hf.1, parseRowGo_escaped hf.2]
      show (parseRowGo (',' :: joinComma (escapeValue g :: gs.map escapeValue)) ([] ++ f)).map
        unescapeValue = _
      rw [parseRowGo_comma]
      simp only [List.nil_append, List.map_cons]
      rw [unescapeValue_of_not_mem hf.2]
      have : (parseRowGo (joinComma (escapeValue g :: gs.map escapeValue)) []).map unescapeValue
          = g :: gs := hrest
      rw [show parseRowGo (joinComma (escapeValue g :: gs.map escapeValue)) []
          = parseRow (joinComma ((g :: gs).map escapeValue)) from rfl]
      rw [show (parseRow (joinComma ((g :: gs).map escapeValue))).map unescapeValue
          = rowRoundTrip (g :: gs) from rfl, hrest]

/-- C2 witness: the amended round trip applied to the concrete fields
`["a,", "b"]`, whose first field contains a comma. -/
theorem C2_row_roundtrip_witness :
    rowRoundTrip [['a', ','], ['b']] = [['a', ','], ['b']] :=
  C2_row_roundtrip [['a', ','], ['b']] (by decide)
    (by intro f hf; fin_cases hf <;> exact ⟨by decide, by decide⟩)

/-! ## Numbers and literals -/

/-- Shorthand turning a Lean string literal into the `Str` model. -/
def lit (s : String) : Str := s.toList

/-- Python `str(n)` for a natural number. -/
def natToStr (n : Nat) : Str := Nat.toDigits 10 n

/-- Python `str(n)` for an integer. -/
def intToStr (n : Int) : Str :=
  if n < 0 then '-' :: natToStr (-n).toNat else natToStr n.toNat

/-- Value of a nonempty all-digit string. -/
def digitsVal : Str → Option Nat
  | [] => none
  | s =>
    if s.all Char.isDigit then
      some (s.foldl (fun acc c => acc * 10 + (c.toNat - '0'.toNat)) 0)
    else none

/-- Python `int(s)`: strips whitespace, accepts an optional sign followed by
digits, raises `ValueError` otherwise. -/
def pyInt (s : Str) : Except String Int :=
  let t := pyStrip s
  let core : Str × Bool :=
    match t with
    | '-' :: rest => (rest, true)
    | '+' :: rest => (rest, false)
    | _ => (t, false)
  match digitsVal core.1 with
  | some n => .ok (if core.2 then -(n : Int) else (n : Int))
  | none => .error ("ValueError: invalid literal for int: " ++ String.mk s)

/-! ## IR model (ir_model.py)

The dataclasses of ir_model.py, with `str` as `Str`, `int` as `Int`,
`X | None` as `Option X` and dataclass defaults as Lean default field
values. -/

/-- `ImportIR` (ir_model.py lines 8-15). -/
structure ImportIR where
  kind : Str
  module : Option Str
  name : Str
  «alias» : Option Str
deriving DecidableEq

/-- `CallIR` (ir_model.py lines 18-24). -/
structure CallIR where
  lineno : Int
  target : Str
  in_entrypoint : Bool := false
deriving DecidableEq

/-- `ModuleImportEdgeIR` (ir_model.py lines 27-32). -/
structure ModuleImportEdgeIR where
  importer_module_id : Int
  imported_module : Str
deriving DecidableEq

/-- `CallEdgeIR` (ir_model.py lines 35-48).  All six fields are required
parameters of the dataclass constructor: none of them has a default. -/
structure CallEdgeIR where
  caller_function_id : Int
  callee_function_id : Option Int
  lineno : Int
  target : Str
  caller_symbol_id : Str
  callee_symbol_id : Option Str
deriving DecidableEq

/-- `FunctionIR` (ir_model.py lines 51-69). -/
structure FunctionIR where
  id : Int
  module_id : Int
  name : Str
  qualified_name : Str
  lineno : Int
  signature : Str := []
  docstring : Option Str := none
  module : Str := []
  qualname : Str := []
  symbol_id : Str := []
  kind : Str := lit "function"
  is_entrypoint : Bool := false
  parent_class_id : Option Int := none
  parent_class_qualified_name : Option Str := none
  calls : List CallIR := []
deriving DecidableEq

/-- `ClassIR` (ir_model.py lines 72-84).  In Python `methods` aliases the
same `FunctionIR` objects held in the module's function list; here it holds
copies kept consistent by construction. -/
structure ClassIR where
  id : Int
  module_id : Int
  name : Str
  qualified_name : Str
  lineno : Int
  module : Str := []
  symbol_id : Str := []
  base_names : List Str := []
  methods : List FunctionIR := []
deriving DecidableEq

/-- `ModuleIR` (ir_model.py lines 87-100). -/
structure ModuleIR where
  id : Int
  path : Str
  module_name : Str
  file_hash : Option Str := none
  has_main_guard : Bool := false
  entry_symbol_id : Option Str := none
  entrypoints : List Str := []
  classes : List ClassIR := []
  imports : List ImportIR := []
  functions : List FunctionIR := []
deriving DecidableEq

/-- `RepositoryIR` (ir_model.py lines 103-119). -/
structure RepositoryIR where
  root : Str
  build_timestamp : Option Str := none
  modules : List ModuleIR := []
  module_import_edges : List ModuleImportEdgeIR := []
  call_edges : List CallEdgeIR := []
  test_mappings : List (Str × Str) := []
  config_paths : List Str := []
  console_scripts : List (Str × Str) := []
deriving DecidableEq

/-- `RepositoryIR.num_modules` (ir_model.py lines 121-123). -/
def RepositoryIR.num_modules (ir : RepositoryIR) : Nat := ir.modules.length

/-- `RepositoryIR.num_classes` (ir_model.py lines 125-127). -/
def RepositoryIR.num_classes (ir : RepositoryIR) : Nat :=
  (ir.modules.map (fun m => m.classes.length)).sum

/-- `RepositoryIR.num_functions` (ir_model.py lines 129-131): module-entry
pseudo-functions (`kind = "module"`) are excluded from the count. -/
def RepositoryIR.num_functions (ir : RepositoryIR) : Nat :=
  (ir.modules.map
    (fun m => (m.functions.filter (fun fn => ¬fn.kind = lit "module")).length)).sum

/-- `RepositoryIR.num_calls` (ir_model.py lines 133-135). -/
def RepositoryIR.num_calls (ir : RepositoryIR) : Nat :=
  (ir.modules.map (fun m => (m.functions.map (fun f => f.calls.length)).sum)).sum

/-! ## Serializer (toon_serialize.py, `repository_ir_to_toon`) -/

/-- `"|".join(values)` and friends: join with a one-character separator. -/
def joinSep (sep : Char) : List Str → Str
  | [] => []
  | [x] => x
  | x :: xs => x ++ sep :: joinSep sep xs

/-- One indented row line: two spaces then the comma-joined cells. -/
def rowLine (cells : List Str) : Str := ' ' :: ' ' :: joinComma cells

/-- `repository_ir_to_toon` (toon_serialize.py lines 20-207), producing the
list of output lines.  Note the emitted column sets: the modules table has no
`file_hash` column, the functions table has no `kind`, `signature`,
`docstring`, `symbol_id`, `module` or `qualname` column, the call_graph table
has no `caller_symbol_id`/`callee_symbol_id` column, and no `build_timestamp`
header line is written. -/
def serModuleRow (m : ModuleIR) : Str :=
  rowLine [intToStr m.id, escapeValue m.module_name, escapeValue m.path,
    natToStr m.functions.length, natToStr m.imports.length]

def serClassRow (cls : ClassIR) : Str :=
  rowLine [intToStr cls.id, intToStr cls.module_id, escapeValue cls.name,
    escapeValue cls.qualified_name, intToStr cls.lineno,
    escapeValue (joinSep '|' cls.base_names), natToStr cls.methods.length]

def serImportRow (moduleId : Int) (imp : ImportIR) : Str :=
  rowLine [intToStr moduleId, escapeValue imp.kind, escapeValue (imp.module.getD []),
    escapeValue imp.name, escapeValue (imp.«alias».getD [])]

def serFunctionRow (fn : FunctionIR) : Str :=
  rowLine [intToStr fn.id, intToStr fn.module_id, escapeValue fn.name,
    escapeValue fn.qualified_name, intToStr fn.lineno,
    (match fn.parent_class_id with | none => [] | some i => intToStr i),
    escapeValue (fn.parent_class_qualified_name.getD []),
    natToStr fn.calls.length]

def serCallRow (fnId moduleId : Int) (call : CallIR) : Str :=
  rowLine [intToStr fnId, intToStr moduleId, intToStr call.lineno,
    escapeValue call.target]

def serModuleImportRow (edge : ModuleImportEdgeIR) : Str :=
  rowLine [intToStr edge.importer_module_id, escapeValue edge.imported_module]

def serCallGraphRow (edge : CallEdgeIR) : Str :=
  rowLine [intToStr edge.caller_function_id,
    (match edge.callee_function_id with | none => [] | some i => intToStr i),
    intToStr edge.lineno, escapeValue edge.target]

def repositoryIrToToonLines (ir : RepositoryIR) : List Str :=
  let moduleRows := ir.modules.map serModuleRow
  let allClasses := ir.modules.flatMap (fun m => m.classes)
  let classRows := allClasses.map serClassRow
  let importRows := ir.modules.flatMap (fun m => m.imports.map (serImportRow m.id))
  let allFunctions := ir.modules.flatMap (fun m => m.functions)
  let functionRows := allFunctions.map serFunctionRow
  let callRows := ir.modules.flatMap (fun m => m.functions.flatMap (fun fn =>
    fn.calls.map (serCallRow fn.id m.id)))
  let moduleImportRows := ir.module_import_edges.map serModuleImportRow
  let callGraphRows := ir.call_edges.map serCallGraphRow
  [lit "repo:",
   lit "  root: " ++ ir.root,
   lit "  num_modules: " ++ natToStr ir.num_modules,
   lit "  num_classes: " ++ natToStr ir.num_classes,
   lit "  num_functions: " ++ natToStr ir.num_functions,
   lit "  num_calls: " ++ natToStr ir.num_calls,
   []]
  ++ [lit "modules[" ++ natToStr ir.num_modules
        ++ lit "]\x7bmodule_id,module_name,path,num_functions,num_imports\x7d:"]
  ++ moduleRows ++ [[]]
  ++ [lit "classes[" ++ natToStr allClasses.length
        ++ lit "]\x7bclass_id,module_id,name,qualified_name,lineno,base_names,num_methods\x7d:"]
  ++ classRows ++ [[]]
  ++ [lit "imports[" ++ natToStr importRows.length
        ++ lit "]\x7bmodule_id,kind,module,name,alias\x7d:"]
  ++ importRows ++ [[]]
  ++ [lit "functions[" ++ natToStr allFunctions.length
        ++ lit "]\x7bfunction_id,module_id,name,qualified_name,lineno,parent_class_id,parent_class_qualified_name,num_calls\x7d:"]
  ++ functionRows ++ [[]]
  ++ [lit "calls[" ++ natToStr callRows.length
        ++ lit "]\x7bfunction_id,module_id,lineno,target\x7d:"]
  ++ callRows ++ [[]]
  ++ [lit "module_imports[" ++ natToStr ir.module_import_edges.length
        ++ lit "]\x7bmodule_id,imported_module\x7d:"]
  ++ moduleImportRows ++ [[]]
  ++ [lit "call_graph[" ++ natToStr ir.call_edges.length
        ++ lit "]\x7bcaller_function_id,callee_function_id,lineno,target\x7d:"]
  ++ callGraphRows ++ [[]]

/-- `repository_ir_to_toon`: the document is `"\n".join(lines)`. -/
def repositoryIrToToon (ir : RepositoryIR) : Str :=
  joinSep '\n' (repositoryIrToToonLines ir)

/-! ## Parser (toon_parse.py, `repository_ir_from_toon`)

Python dicts keyed by strings or ints are modelled as association lists with
overwrite-on-set and, where the source keeps aliased references, functional
update of the last-inserted entry.  `int(...)` failures and `KeyError`s are
modelled by `Except`. -/

/-- Python `text.splitlines()` for `\n`-separated text (the only terminator
the serializer emits). -/
def splitlinesGo : Str → Str → List Str
  | [], acc => [acc.reverse]
  | c :: cs, acc =>
    if c = '\n' then
      acc.reverse :: (if cs.isEmpty then [] else splitlinesGo cs [])
    else splitlinesGo cs (c :: acc)

def splitlines : Str → List Str
  | [] => []
  | text => splitlinesGo text []

/-- Python `s.find`-style index of the first occurrence of a character. -/
def charIndex (c : Char) (s : Str) : Option Nat := s.findIdx? (fun d => d = c)

/-- Python slice `s[a:b]`. -/
def pySlice (s : Str) (a b : Nat) : Str := (s.drop a).take (b - a)

/-- A parsed table row, a Python `dict[str, str]`. -/
abbrev Row := List (Str × Str)

/-- Dict write with overwrite semantics. -/
def rowSet : Row → Str → Str → Row
  | [], k, v => [(k, v)]
  | (k0, v0) :: rest, k, v =>
    if k0 = k then (k, v) :: rest else (k0, v0) :: rowSet rest k v

/-- Python `row.get(key, default)`. -/
def rowGet (r : Row) (k : Str) (default : Str) : Str :=
  match r.find? (fun p => p.1 = k) with
  | some p => p.2
  | none => default

/-- Python `row[key]` (raises `KeyError` when missing). -/
def rowGetE (r : Row) (k : Str) : Except String Str :=
  match r.find? (fun p => p.1 = k) with
  | some p => .ok p.2
  | none => .error ("KeyError: " ++ String.mk k)

/-- The accumulated tables, a Python `dict[str, list[dict[str, str]]]`. -/
abbrev Tables := List (Str × List Row)

def tablesSetdefault (t : Tables) (name : Str) : Tables :=
  if (t.find? (fun p => p.1 = name)).isSome then t else t ++ [(name, [])]

def tablesAppendRow : Tables → Str → Row → Tables
  | [], name, row => [(name, [row])]
  | (n, rows) :: rest, name, row =>
    if n = name then (n, rows ++ [row]) :: rest
    else (n, rows) :: tablesAppendRow rest name row

def tablesGet (t : Tables) (name : Str) : List Row :=
  match t.find? (fun p => p.1 = name) with
  | some p => p.2
  | none => []

/-- `_parse_table_header` (toon_parse.py lines 57-73). -/
def parseTableHeader (line : Str) : Except String (Str × List Str) := do
  let l := pyStrip line
  match splitOnceChar '[' l with
  | none => .error "ValueError: not enough values to unpack"
  | some (namePart, rest) =>
    let name := pyStrip namePart
    match splitOnceChar ']' rest with
    | none => .error "ValueError: not enough values to unpack"
    | some (_, restAfter) =>
      match charIndex '\x7b' restAfter, charIndex '\x7d' restAfter with
      | some braceStart, some braceEnd =>
        let fieldsStr := pySlice restAfter (braceStart + 1) braceEnd
        let fields := ((splitAllChar ',' fieldsStr).map pyStrip).filter
          (fun f => ¬f.isEmpty)
        .ok (name, fields)
      | _, _ => .error "ValueError: substring not found"

/-- `row[field] = values[i] if i < len(values) else ""` over `current_fields`. -/
def buildRowDict (fields values : List Str) : Row :=
  fields.enum.foldl (fun acc p => rowSet acc p.2 (values.getD p.1 [])) []

/-- Scanner state of the line loop in `repository_ir_from_toon`
(toon_parse.py lines 86-134). -/
structure ParseSt where
  root : Option Str := none
  currentTable : Option Str := none
  currentFields : List Str := []
  tables : Tables := []
  inRepoHeader : Bool := false
  build_timestamp : Option Str := none

/-- One iteration of the line loop (toon_parse.py lines 93-134). -/
def parseToonLine (st : ParseSt) (rawLine : Str) : Except String ParseSt :=
  let line := pyRstripChar '\n' rawLine
  let stripped := pyStrip line
  if stripped.isEmpty then
    .ok (if st.inRepoHeader then { st with inRepoHeader := false } else st)
  else if stripped = lit "repo:" then
    .ok { st with inRepoHeader := true, currentTable := none }
  else if st.inRepoHeader ∧ strStartsWith stripped (lit "root:") then
    match splitOnceChar ':' stripped with
    | some (_, value) => .ok { st with root := some (pyStrip value) }
    | none => .error "ValueError: not enough values to unpack"
  else if st.inRepoHeader ∧ strStartsWith stripped (lit "build_timestamp:") then
    match splitOnceChar ':' stripped with
    | some (_, value) => .ok { st with build_timestamp := some (pyStrip value) }
    | none => .error "ValueError: not enough values to unpack"
  else if ¬strStartsWith line (lit " ") ∧ line.contains '[' ∧ line.contains '\x7b'
      ∧ strEndsWith line (lit ":") then do
    let (tableName, fields) ← parseTableHeader line
    .ok { st with currentTable := some tableName, currentFields := fields,
                  tables := tablesSetdefault st.tables tableName }
  else if st.currentTable.isSome ∧ strStartsWith line (lit " ") then
    match st.currentTable with
    | some tname =>
      let values := parseRow (pyStrip line)
      let row := buildRowDict st.currentFields values
      .ok { st with tables := tablesAppendRow st.tables tname row }
    | none => .error "unreachable"
  else
    .ok st

/-- Update the last element satisfying `p` (dict-by-id writes in the source
alias the most recently inserted object); `none` when no element matches. -/
def updateLastBy {α : Type} (p : α → Bool) (f : α → α) : List α → Option (List α)
  | [] => none
  | x :: rest =>
    match updateLastBy p f rest with
    | some rest2 => some (x :: rest2)
    | none => if p x then some (f x :: rest) else none

/-- Last module with a given id (`modules_by_id[...]`, last write wins). -/
def findLastModule (modules : List ModuleIR) (mid : Int) : Option ModuleIR :=
  modules.reverse.find? (fun m => m.id = mid)

/-- Update the last module with the given id; `none` models `KeyError`. -/
def updateLastModule (modules : List ModuleIR) (mid : Int) (f : ModuleIR → ModuleIR) :
    Option (List ModuleIR) :=
  updateLastBy (fun m => m.id = mid) f modules

/-- Last function with the given id across all modules
(`functions_by_id.get`, insertion order approximated by traversal order). -/
def findLastFunction (modules : List ModuleIR) (fid : Int) : Option FunctionIR :=
  (modules.flatMap (fun m => m.functions)).reverse.find? (fun fn => fn.id = fid)

/-- Update the last function with the given id across all modules. -/
def updateLastFunction (f : FunctionIR → FunctionIR) (fid : Int) :
    List ModuleIR → Option (List ModuleIR)
  | [] => none
  | m :: rest =>
    match updateLastFunction f fid rest with
    | some rest2 => some (m :: rest2)
    | none =>
      match updateLastBy (fun fn => fn.id = fid) f m.functions with
      | some fns2 => some ({ m with functions := fns2 } :: rest)
      | none => none

/-- Update the last class with the given id across all modules
(`classes_by_id.get`). -/
def updateLastClass (f : ClassIR → ClassIR) (cid : Int) :
    List ModuleIR → Option (List ModuleIR)
  | [] => none
  | m :: rest =>
    match updateLastClass f cid rest with
    | some rest2 => some (m :: rest2)
    | none =>
      match updateLastBy (fun c => c.id = cid) f m.classes with
      | some cls2 => some ({ m with classes := cls2 } :: rest)
      | none => none

/-- Python slice `split('.', 1)[-1]`: everything after the first dot, or the
whole string when there is none. -/
def afterFirstDot (s : Str) : Str :=
  match splitOnceChar '.' s with
  | some (_, rest) => rest
  | none => s

/-- Modules reconstruction (toon_parse.py lines 141-167). -/
def pAddModule (modules : List ModuleIR) (row : Row) : Except String (List ModuleIR) := do
  let module_id ← pyInt (← rowGetE row (lit "module_id"))
  let module_name := unescapeValue (← rowGetE row (lit "module_name"))
  let path := unescapeValue (← rowGetE row (lit "path"))
  let file_hash := unescapeValue (rowGet row (lit "file_hash") [])
  let has_main_guard := rowGet row (lit "has_main_guard") (lit "0") = lit "1"
  let entry_symbol_id := unescapeValue (rowGet row (lit "entry_symbol_id") [])
  let entrypoints_raw := unescapeValue (rowGet row (lit "entrypoints") [])
  let entrypoints := (splitAllChar '|' entrypoints_raw).filter (fun e => ¬e.isEmpty)
  let m : ModuleIR :=
    { id := module_id, path := path, module_name := module_name,
      file_hash := if file_hash.isEmpty then none else some file_hash,
      has_main_guard := has_main_guard,
      entry_symbol_id := if entry_symbol_id.isEmpty then none else some entry_symbol_id,
      entrypoints := entrypoints, imports := [], functions := [] }
  .ok (modules ++ [m])

/-- Classes reconstruction (toon_parse.py lines 171-198). -/
def pAddClass (modules : List ModuleIR) (row : Row) : Except String (List ModuleIR) := do
  let class_id ← pyInt (← rowGetE row (lit "class_id"))
  let module_id ← pyInt (← rowGetE row (lit "module_id"))
  match findLastModule modules module_id with
  | none => .error "KeyError: module_id"
  | some module => do
    let name := unescapeValue (← rowGetE row (lit "name"))
    let qualified_name := unescapeValue (← rowGetE row (lit "qualified_name"))
    let module_name := unescapeValue (rowGet row (lit "module") module.module_name)
    let symbol_id := unescapeValue (rowGet row (lit "symbol_id") [])
    let lineno ← pyInt (← rowGetE row (lit "lineno"))
    let base_names_raw := unescapeValue (rowGet row (lit "base_names") [])
    let base_names := (splitAllChar '|' base_names_raw).filter (fun v => ¬v.isEmpty)
    let clsModule := if module_name.isEmpty then module.module_name else module_name
    let cls0 : ClassIR :=
      { id := class_id, module_id := module_id, name := name,
        qualified_name := qualified_name, module := clsModule, symbol_id := symbol_id,
        lineno := lineno, base_names := base_names }
    let cls := if cls0.symbol_id.isEmpty then
        { cls0 with symbol_id := cls0.module ++ ':' :: afterFirstDot cls0.qualified_name }
      else cls0
    match updateLastModule modules module_id (fun m => { m with classes := m.classes ++ [cls] }) with
    | some modules2 => .ok modules2
    | none => .error "KeyError: module_id"

/-- Imports reconstruction (toon_parse.py lines 202-217). -/
def pAddImport (modules : List ModuleIR) (row : Row) : Except String (List ModuleIR) := do
  let module_id ← pyInt (← rowGetE row (lit "module_id"))
  if (findLastModule modules module_id).isNone then
    .error "KeyError: module_id"
  else do
    let kind := unescapeValue (← rowGetE row (lit "kind"))
    let module_name := unescapeValue (rowGet row (lit "module") [])
    let name := unescapeValue (← rowGetE row (lit "name"))
    let aliasValue := unescapeValue (rowGet row (lit "alias") [])
    let imp : ImportIR :=
      { kind := kind,
        module := if module_name.isEmpty then none else some module_name,
        name := name,
        «alias» := if aliasValue.isEmpty then none else some aliasValue }
    match updateLastModule modules module_id (fun m => { m with imports := m.imports ++ [imp] }) with
    | some modules2 => .ok modules2
    | none => .error "KeyError: module_id"

/-- Functions reconstruction (toon_parse.py lines 221-273). -/
def pAddFunction (modules : List ModuleIR) (row : Row) : Except String (List ModuleIR) := do
  let function_id ← pyInt (← rowGetE row (lit "function_id"))
  let module_id ← pyInt (← rowGetE row (lit "module_id"))
  match findLastModule modules module_id with
  | none => .error "KeyError: module_id"
  | some module => do
    let name := unescapeValue (← rowGetE row (lit "name"))
    let qualified_name := unescapeValue (← rowGetE row (lit "qualified_name"))
    let module_name := unescapeValue (rowGet row (lit "module") module.module_name)
    let qualname0 := unescapeValue (rowGet row (lit "qualname") [])
    let symbol_id := unescapeValue (rowGet row (lit "symbol_id") [])
    let kind := unescapeValue (rowGet row (lit "kind") (lit "function"))
    let is_entrypoint := rowGet row (lit "is_entrypoint") (lit "0") = lit "1"
    let lineno ← pyInt (← rowGetE row (lit "lineno"))
    let signature := unescapeValue (rowGet row (lit "signature") [])
    let docstring := unescapeValue (rowGet row (lit "docstring") [])
    let parent_class_raw := rowGet row (lit "parent_class_id") []
    let parent_class_id ← (if parent_class_raw.isEmpty then .ok none
      else (pyInt parent_class_raw).map some : Except String (Option Int))
    let parent_class_qual := unescapeValue (rowGet row (lit "parent_class_qualified_name") [])
    let qualname := if qualname0.isEmpty then
        (if strStartsWith qualified_name (module_name ++ ['.']) then
          qualified_name.drop (module_name.length + 1)
        else qualified_name)
      else qualname0
    let fn0 : FunctionIR :=
      { id := function_id, module_id := module_id, name := name,
        qualified_name := qualified_name, lineno := lineno,
        module := if module_name.isEmpty then module.module_name else module_name,
        qualname := qualname, symbol_id := symbol_id,
        kind := if kind.isEmpty then lit "function" else kind,
        is_entrypoint := is_entrypoint, parent_class_id := parent_class_id,
        parent_class_qualified_name :=
          if parent_class_qual.isEmpty then none else some parent_class_qual,
        signature := signature,
        docstring := if docstring.isEmpty then none else some docstring }
    let fn := if fn0.symbol_id.isEmpty then
        { fn0 with symbol_id := fn0.module ++ ':' :: fn0.qualname }
      else fn0
    match updateLastModule modules module_id
        (fun m => { m with functions := m.functions ++ [fn] }) with
    | none => .error "KeyError: module_id"
    | some modules2 =>
      match parent_class_id with
      | none => .ok modules2
      | some cid =>
        match updateLastClass (fun c => { c with methods := c.methods ++ [fn] }) cid modules2 with
        | some modules3 => .ok modules3
        | none => .ok modules2

/-- Call-sites reconstruction (toon_parse.py lines 277-285): rows whose
function id is unknown are skipped. -/
def pAttachCall (modules : List ModuleIR) (row : Row) : Except String (List ModuleIR) := do
  let function_id ← pyInt (← rowGetE row (lit "function_id"))
  let lineno ← pyInt (← rowGetE row (lit "lineno"))
  let target := unescapeValue (← rowGetE row (lit "target"))
  match updateLastFunction
      (fun fn => { fn with calls := fn.calls ++ [{ lineno := lineno, target := target }] })
      function_id modules with
  | some modules2 => .ok modules2
  | none => .ok modules

/-- Module import edges (toon_parse.py lines 289-296). -/
def pModuleImportEdge (row : Row) : Except String ModuleImportEdgeIR := do
  let module_id ← pyInt (← rowGetE row (lit "module_id"))
  let imported_module := unescapeValue (← rowGetE row (lit "imported_module"))
  .ok { importer_module_id := module_id, imported_module := imported_module }

/-- Call graph edges (toon_parse.py lines 300-328). -/
def pCallEdge (modules : List ModuleIR) (row : Row) : Except String CallEdgeIR := do
  let caller_id ← pyInt (← rowGetE row (lit "caller_function_id"))
  let callee_raw := rowGet row (lit "callee_function_id") []
  let callee_id ← (if callee_raw.isEmpty then .ok none
    else (pyInt callee_raw).map some : Except String (Option Int))
  let lineno ← pyInt (← rowGetE row (lit "lineno"))
  let target := unescapeValue (← rowGetE row (lit "target"))
  let caller_symbol_id := unescapeValue (rowGet row (lit "caller_symbol_id") [])
  let callee_symbol_id := unescapeValue (rowGet row (lit "callee_symbol_id") [])
  let caller_fn := findLastFunction modules caller_id
  let resolved_caller := if ¬caller_symbol_id.isEmpty then caller_symbol_id
    else match caller_fn with
      | some fn => fn.symbol_id
      | none => []
  let resolved_callee : Option Str :=
    if ¬callee_symbol_id.isEmpty then some callee_symbol_id
    else match callee_id with
      | some cid =>
        match findLastFunction modules cid with
        | some fn => some fn.symbol_id
        | none => none
      | none => none
  let edge : CallEdgeIR :=
    { caller_function_id := caller_id, callee_function_id := callee_id,
      lineno := lineno, target := target, caller_symbol_id := resolved_caller,
      callee_symbol_id := resolved_callee }
  .ok edge

/-- Python `s.split(sep, 1)` for the two-character separator `[a, b]`. -/
def splitOncePair (a b : Char) : Str → Option (Str × Str)
  | [] => none
  | [_] => none
  | c :: d :: cs =>
    if c = a ∧ d = b then some ([], cs)
    else (splitOncePair a b (d :: cs)).map (fun p => (c :: p.1, p.2))

/-- Config table (toon_parse.py lines 330-341). -/
def pConfigFold (acc : List Str × List (Str × Str)) (row : Row) :
    List Str × List (Str × Str) :=
  let kind := rowGet row (lit "kind") []
  let value := unescapeValue (rowGet row (lit "value") [])
  if kind = lit "path" then (acc.1 ++ [value], acc.2)
  else if kind = lit "console_script" then
    match splitOncePair '=' '>' value with
    | some (name, target) => (acc.1, acc.2 ++ [(name, target)])
    | none => acc
  else acc

/-- Python `dict.get` over an association list (unique keys by construction:
writes go through `dSet`, which overwrites in place). -/
def dGet {κ α : Type} [DecidableEq κ] (d : List (κ × α)) (k : κ) : Option α :=
  (d.find? (fun p => p.1 = k)).map (fun p => p.2)

/-- Python `dict[k] = v` with overwrite semantics. -/
def dSet {κ α : Type} [DecidableEq κ] : List (κ × α) → κ → α → List (κ × α)
  | [], k, v => [(k, v)]
  | (k0, v0) :: rest, k, v =>
    if k0 = k then (k, v) :: rest else (k0, v0) :: dSet rest k v

theorem dGet_mem {κ α : Type} [DecidableEq κ] {d : List (κ × α)} {k : κ} {v : α}
    (h : dGet d k = some v) : v ∈ d.map (fun p => p.2) := by
  unfold dGet at h
  cases hf : d.find? (fun p => p.1 = k) with
  | none => rw [hf] at h; simp at h
  | some p =>
    rw [hf] at h
    simp at h
    subst h
    exact List.mem_map_of_mem _ (List.mem_of_find?_eq_some hf)

/-- `repository_ir_from_toon` (toon_parse.py lines 76-352). -/
def repositoryIrFromToon (text : Str) : Except String RepositoryIR := do
  let lines := splitlines text
  let st ← lines.foldlM parseToonLine {}
  match st.root with
  | none => .error "ValueError: TOON IR is missing repo.root header"
  | some root => do
    let modules1 ← (tablesGet st.tables (lit "modules")).foldlM pAddModule []
    let modules2 ← (tablesGet st.tables (lit "classes")).foldlM pAddClass modules1
    let modules3 ← (tablesGet st.tables (lit "imports")).foldlM pAddImport modules2
    let modules4 ← (tablesGet st.tables (lit "functions")).foldlM pAddFunction modules3
    let modules5 ← (tablesGet st.tables (lit "calls")).foldlM pAttachCall modules4
    let module_import_edges ←
      (tablesGet st.tables (lit "module_imports")).mapM pModuleImportEdge
    let call_edges ← (tablesGet st.tables (lit "call_graph")).mapM (pCallEdge modules5)
    let config := (tablesGet st.tables (lit "config")).foldl pConfigFold ([], [])
    let out : RepositoryIR :=
      { root := root, build_timestamp := st.build_timestamp, modules := modules5,
        module_import_edges := module_import_edges, call_edges := call_edges,
        test_mappings := [], config_paths := config.1, console_scripts := config.2 }
    .ok out

/-! ## AST extractor (ir_build.py)

A fragment of the Python AST sufficient for the statements the builder claims
exercise: imports, (possibly nested) function definitions, bare expression
statements and `if` statements (covering the main guard).  Class definitions
and async functions are not part of the modelled fragment; class data still
enters the resolver as `ClassIR` values (§ resolver below), exactly as the
source consumes them. -/

/-- Expression fragment: names, attribute chains, calls and constants. -/
inductive PyExpr where
  | name (id : Str)
  | attribute (value : PyExpr) (attr : Str)
  | call (func : PyExpr) (args : List PyExpr) (lineno : Int)
  | constant (text : Str)

/-- Statement fragment. -/
inductive PyStmt where
  | importStmt (names : List (Str × Option Str))
  | importFrom (module : Str) (names : List (Str × Option Str))
  | functionDef (name : Str) (lineno : Int) (body : List PyStmt)
  | exprStmt (value : PyExpr)
  | ifStmt (test : PyExpr) (body : List PyStmt) (orelse : List PyStmt)

/-! `ast.unparse` modelled for the fragment (only reached by the textual
fallbacks of `render_call_target`). -/
mutual
def unparsePy : PyExpr → Str
  | .name id => id
  | .attribute v attr => unparsePy v ++ '.' :: attr
  | .call f args _ => unparsePy f ++ '(' :: unparsePyArgs args ++ [')']
  | .constant text => text
def unparsePyArgs : List PyExpr → Str
  | [] => []
  | [e] => unparsePy e
  | e :: rest => unparsePy e ++ ',' :: ' ' :: unparsePyArgs rest
end

/-- The attribute-chain climb of `render_call_target` (ir_build.py lines
188-197): collect `curr.attr` while descending into `curr.value`. -/
def collectAttrParts : PyExpr → List Str → PyExpr × List Str
  | .attribute v attr, acc => collectAttrParts v (acc ++ [attr])
  | e, acc => (e, acc)

/-- `render_call_target` (ir_build.py lines 180-206). -/
def renderCallTarget (node : PyExpr) : Str :=
  match node with
  | .name id => id
  | .attribute v attr =>
    match collectAttrParts (.attribute v attr) [] with
    | (.name id, parts) => joinSep '.' ((parts ++ [id]).reverse)
    | _ => unparsePy node
  | e => unparsePy e

/-- Mutable state of `_IRVisitor` (ir_build.py lines 59-71): collected
imports and functions, the function-context stack (head = innermost), and the
per-module function id counter.  The class stack is empty for the modelled
fragment. -/
structure VisitorSt where
  imports : List ImportIR := []
  functions : List FunctionIR := []
  stack : List FunctionIR := []
  nextFunctionId : Int := 0
deriving DecidableEq

/-- `visit_Call` body (ir_build.py lines 171-177): a call site is recorded
only when the function-context stack is nonempty; calls at file scope are
silently dropped. -/
def recordCall (st : VisitorSt) (lineno : Int) (target : Str) : VisitorSt :=
  match st.stack with
  | [] => st
  | top :: rest =>
    { st with stack :=
        { top with calls := top.calls ++ [{ lineno := lineno, target := target }] } :: rest }

/-! Expression traversal: `visit_Call` plus `generic_visit` descent. -/
mutual
def visitExpr (st : VisitorSt) : PyExpr → VisitorSt
  | .name _ => st
  | .constant _ => st
  | .attribute v _ => visitExpr st v
  | .call f args lineno =>
    let st1 := recordCall st lineno (renderCallTarget f)
    visitExprs (visitExpr st1 f) args
def visitExprs (st : VisitorSt) : List PyExpr → VisitorSt
  | [] => st
  | e :: rest => visitExprs (visitExpr st e) rest
end

/-! Statement traversal: `visit_Import` (ir_build.py lines 75-85),
`visit_ImportFrom` (87-98), `_handle_function` (135-169) and `generic_visit`
for the rest. -/
mutual
def visitStmt (moduleId : Int) (moduleName : Str) (st : VisitorSt) : PyStmt → VisitorSt
  | .importStmt names =>
    { st with imports := st.imports ++ names.map (fun p =>
        { kind := lit "import", module := none, name := p.1, «alias» := p.2 }) }
  | .importFrom fromModule names =>
    { st with imports := st.imports ++ names.map (fun p =>
        { kind := lit "from", module := some fromModule, name := p.1, «alias» := p.2 }) }
  | .functionDef name lineno body =>
    let fnIr : FunctionIR :=
      { id := st.nextFunctionId, module_id := moduleId, name := name,
        qualified_name := moduleName ++ '.' :: name, lineno := lineno,
        parent_class_id := none, parent_class_qualified_name := none }
    let st1 := { st with nextFunctionId := st.nextFunctionId + 1, stack := fnIr :: st.stack }
    let st2 := visitStmts moduleId moduleName st1 body
    match st2.stack with
    | fn :: rest => { st2 with stack := rest, functions := st2.functions ++ [fn] }
    | [] => st2
  | .exprStmt e => visitExpr st e
  | .ifStmt test body orelse =>
    visitStmts moduleId moduleName
      (visitStmts moduleId moduleName (visitExpr st test) body) orelse
def visitStmts (moduleId : Int) (moduleName : Str) (st : VisitorSt) :
    List PyStmt → VisitorSt
  | [] => st
  | s :: rest => visitStmts moduleId moduleName (visitStmt moduleId moduleName st s) rest
end

/-- Running `_IRVisitor` over a parsed module body. -/
def runVisitor (moduleId : Int) (moduleName : Str) (body : List PyStmt) : VisitorSt :=
  visitStmts moduleId moduleName {} body

/-- `Path.with_suffix("")` on one path component: drop the final extension
(a dot not in first position). -/
def dropLastSuffix (s : Str) : Str :=
  match charIndex '.' s.reverse with
  | none => s
  | some k => if k = s.length - 1 then s else s.take (s.length - 1 - k)

def dropSuffixOnLast : List Str → List Str
  | [] => []
  | [x] => [dropLastSuffix x]
  | x :: rest => x :: dropSuffixOnLast rest

/-- `module_name_from_path` (ir_build.py lines 36-46); the relative path is a
`/`-separated string. -/
def moduleNameFromPath (relPath : Str) : Str :=
  let parts0 := dropSuffixOnLast (splitAllChar '/' relPath)
  let parts := match parts0 with
    | p :: rest => if p = lit "src" then rest else parts0
    | [] => []
  joinSep '.' parts

/-! ## Resolver (ir_build.py, `build_repository_ir` lines 234-472) -/

/-- Per-module alias map (ir_build.py lines 338-342):
`import m [as a]` binds the local name to the imported module. -/
def mkModuleAliases (module : ModuleIR) : List (Str × Str) :=
  module.imports.foldl (fun acc imp =>
    if imp.kind = lit "import" then
      let importedModule := imp.name
      let localName := match imp.«alias» with
        | some a => a
        | none => ((splitAllChar '.' importedModule).getLastD importedModule)
      dSet acc localName importedModule
    else acc) []

/-- Per-module `from`-import map (ir_build.py lines 343-346). -/
def mkFuncImports (module : ModuleIR) : List (Str × (Str × Str)) :=
  module.imports.foldl (fun acc imp =>
    if imp.kind = lit "from" then
      let importedModule := imp.module.getD []
      let localName := (imp.«alias»).getD imp.name
      dSet acc localName (importedModule, imp.name)
    else acc) []

/-- Per-module class lookup (ir_build.py lines 330-337): simple name,
qualified name, and module-local qualified name. -/
def mkClassLookup (module : ModuleIR) : List (Str × ClassIR) :=
  module.classes.foldl (fun acc cls =>
    let acc1 := dSet acc cls.name cls
    let acc2 := dSet acc1 cls.qualified_name cls
    if strStartsWith cls.qualified_name (module.module_name ++ ['.']) then
      dSet acc2 (cls.qualified_name.drop (module.module_name.length + 1)) cls
    else acc2) []

/-- `_resolve_class_name` (ir_build.py lines 348-365). -/
def resolveClassName (classLookup classByQual : List (Str × ClassIR)) (name : Str) :
    Option ClassIR :=
  if name.isEmpty then none
  else match dGet classLookup name with
  | some c => some c
  | none =>
    match dGet classByQual name with
    | some c => some c
    | none =>
      if name.contains '.' then
        match dGet classLookup (afterFirstDot name) with
        | some c => some c
        | none => dGet classByQual (afterFirstDot name)
      else none

theorem resolveClassName_mem {classLookup classByQual : List (Str × ClassIR)}
    {name : Str} {c : ClassIR}
    (h : resolveClassName classLookup classByQual name = some c) :
    c ∈ classLookup.map (fun p => p.2) ∨ c ∈ classByQual.map (fun p => p.2) := by
  unfold resolveClassName at h
  split at h
  · simp at h
  · split at h
    · rename_i heq
      cases h
      exact Or.inl (dGet_mem heq)
    · split at h
      · rename_i heq
        cases h
        exact Or.inr (dGet_mem heq)
      · split at h
        · split at h
          · rename_i heq
            cases h
            exact Or.inl (dGet_mem heq)
          · exact Or.inr (dGet_mem h)
        · simp at h

theorem length_filter_le_of_imp {α : Type} {p q : α → Bool}
    (h : ∀ x, q x = true → p x = true) (l : List α) :
    (l.filter q).length ≤ (l.filter p).length := by
  induction l with
  | nil => simp
  | cons x xs ih =>
    rw [List.filter_cons, List.filter_cons]
    by_cases hq : q x = true
    · rw [if_pos hq, if_pos (h x hq)]
      simpa using ih
    · rw [if_neg hq]
      by_cases hp : p x = true
      · rw [if_pos hp]
        simp
        omega
      · rw [if_neg hp]
        exact ih

theorem length_filter_lt_of {α : Type} {p q : α → Bool}
    (himp : ∀ x, q x = true → p x = true) {a : α} {l : List α}
    (ha : a ∈ l) (hpa : p a = true) (hqa : q a = false) :
    (l.filter q).length < (l.filter p).length := by
  induction l with
  | nil => cases ha
  | cons x xs ih =>
    rw [List.filter_cons, List.filter_cons]
    rcases List.mem_cons.mp ha with rfl | hmem
    · rw [if_pos hpa, if_neg (by simp [hqa])]
      have := length_filter_le_of_imp himp xs
      simp
      omega
    · by_cases hq : q x = true
      · rw [if_pos hq, if_pos (himp x hq)]
        simpa using ih hmem
      · rw [if_neg hq]
        by_cases hp : p x = true
        · rw [if_pos hp]
          have := ih hmem
          simp
          omega
        · rw [if_neg hp]
          exact ih hmem

/-- The class pool the hierarchy walk can ever touch: values of the lookup
maps the source draws candidates from. -/
def hierarchyPool (classLookup classByQual : List (Str × ClassIR))
    (classById : List (Int × ClassIR)) : List ClassIR :=
  classLookup.map (fun p => p.2) ++ classByQual.map (fun p => p.2)
    ++ classById.map (fun p => p.2)

/-- Loop of `_iter_class_hierarchy` (ir_build.py lines 367-381): a stack-based
depth-first walk with a visited set.  The stack carries pool-membership
evidence only to justify termination; the computed list is exactly the
source's `ordered`.  Pushes go to the head in reverse order, matching
`list.append`/`list.pop` at the tail. -/
def iterClassHierarchyGo (pool : List ClassIR)
    (resolve : Str → Option { c : ClassIR // c ∈ pool })
    (stack : List { c : ClassIR // c ∈ pool }) (seen : List Int) : List ClassIR :=
  match stack with
  | [] => []
  | c :: rest =>
    if hseen : c.val.id ∈ seen then iterClassHierarchyGo pool resolve rest seen
    else
      let seen2 := c.val.id :: seen
      let pushes := (c.val.base_names.filterMap resolve).filter
        (fun b => decide (¬b.val.id ∈ seen2))
      c.val :: iterClassHierarchyGo pool resolve (pushes.reverse ++ rest) seen2
termination_by
  ((pool.filter (fun x => decide (¬x.id ∈ seen))).length, stack.length)
decreasing_by
  · exact Prod.Lex.right _ (by simp)
  · apply Prod.Lex.left
    apply length_filter_lt_of (a := c.val)
      (fun x hx => by
        simp only [decide_eq_true_eq] at hx ⊢
        intro hmem
        exact hx (List.mem_cons_of_mem _ hmem))
      c.property
    · simpa using hseen
    · simp

/-- `_iter_class_hierarchy(start_cls)`. -/
def iterClassHierarchy (pool : List ClassIR)
    (resolve : Str → Option { c : ClassIR // c ∈ pool })
    (start : { c : ClassIR // c ∈ pool }) : List ClassIR :=
  iterClassHierarchyGo pool resolve [start] []

/-- `Python rest.split(".", 1)[0]`. -/
def beforeFirstDot (s : Str) : Str :=
  match splitOnceChar '.' s with
  | some (a, _) => a
  | none => s

/-- Python `target.rsplit(".", 1)` when `.` occurs. -/
def splitLastDot (s : Str) : Option (Str × Str) :=
  match splitOnceChar '.' s.reverse with
  | some (revAfter, revBefore) => some (revBefore.reverse, revAfter.reverse)
  | none => none

/-- The hierarchy search of step 2b (ir_build.py lines 419-424): first
candidate class owning `<qualified_name>.<method>`. -/
def searchHierarchy (functionByQualified : List (Str × FunctionIR))
    (candidates : List ClassIR) (methodName : Str) : Option Int :=
  match candidates with
  | [] => none
  | cls :: rest =>
    match dGet functionByQualified (cls.qualified_name ++ '.' :: methodName) with
    | some fnObj => some fnObj.id
    | none => searchHierarchy functionByQualified rest methodName

/-- The `self.`/`cls.`/`super(` resolution attempt (ir_build.py lines
400-424), with the hierarchy walk instantiated over the pool of known
classes. -/
def resolveSelfClsSuper (functionByQualified : List (Str × FunctionIR))
    (classById : List (Int × ClassIR)) (classByQual : List (Str × ClassIR))
    (classLookup : List (Str × ClassIR)) (fn : FunctionIR) (target : Str) : Option Int :=
  if target.contains '.' ∧ fn.parent_class_id.isSome then
    match fn.parent_class_id with
    | none => none
    | some pcid =>
      match hown : dGet classById pcid with
      | none => none
      | some owningClass =>
        match splitOnceChar '.' target with
        | none => none
        | some (pre, rest) =>
          let pool := hierarchyPool classLookup classByQual classById
          let resolve : Str → Option { c : ClassIR // c ∈ pool } := fun nm =>
            match hres : resolveClassName classLookup classByQual nm with
            | some c => some ⟨c, by
                rcases resolveClassName_mem hres with hmem | hmem
                · exact List.mem_append_left _ (List.mem_append_left _ hmem)
                · exact List.mem_append_left _ (List.mem_append_right _ hmem)⟩
            | none => none
          let hierarchy := iterClassHierarchy pool resolve
            ⟨owningClass, List.mem_append_right _ (dGet_mem hown)⟩
          let methodAndCandidates : Option (Str × List ClassIR) :=
            if pre = lit "self" ∨ pre = lit "cls" then
              some (beforeFirstDot rest, hierarchy)
            else if strStartsWith pre (lit "super()") ∨ strStartsWith pre (lit "super(") then
              some (beforeFirstDot rest, hierarchy.drop 1)
            else none
          match methodAndCandidates with
          | none => none
          | some (methodName, candidates) =>
            if methodName.isEmpty then none
            else searchHierarchy functionByQualified candidates methodName
  else none

/-- The per-call resolution chain of `build_repository_ir` (ir_build.py lines
383-455), translated step by step: `callee_id` starts as `None` and each
numbered block runs only while it is still `None`. -/
def resolveCallTarget (functionByQualified : List (Str × FunctionIR))
    (classById : List (Int × ClassIR)) (classByQual : List (Str × ClassIR))
    (module : ModuleIR) (fn : FunctionIR) (target : Str) : Option Int :=
  let moduleAliases := mkModuleAliases module
  let funcImports := mkFuncImports module
  let classLookup := mkClassLookup module
  match (dGet functionByQualified target).map (fun f => f.id) with
  | some i => some i
  | none =>
    match (module.functions.find? (fun cand => cand.name = target)).map (fun f => f.id) with
    | some i => some i
    | none =>
      match resolveSelfClsSuper functionByQualified classById classByQual
          classLookup fn target with
      | some i => some i
      | none =>
        let c3 : Option Int :=
          match dGet funcImports target with
          | some (importedModule, originalName) =>
            if ¬importedModule.isEmpty then
              (dGet functionByQualified (importedModule ++ '.' :: originalName)).map
                (fun f => f.id)
            else none
          | none => none
        match c3 with
        | some i => some i
        | none =>
          let c4 : Option Int :=
            if target.contains '.' then
              match splitOnceChar '.' target with
              | some (pre, rest) =>
                match dGet moduleAliases pre with
                | some importedModule =>
                  (dGet functionByQualified
                    (importedModule ++ '.' :: beforeFirstDot rest)).map (fun f => f.id)
                | none => none
              | none => none
            else none
          match c4 with
          | some i => some i
          | none =>
            if target.contains '.' then
              match splitLastDot target with
              | some (classExpr, methodExpr) =>
                match dGet classLookup classExpr with
                | some cls =>
                  (dGet functionByQualified
                    (cls.qualified_name ++ '.' :: beforeFirstDot methodExpr)).map
                    (fun f => f.id)
                | none => none
              | none => none
            else none

/-! ## `build_repository_ir` (ir_build.py lines 234-472) -/

/-- The builder constructs each edge as
`CallEdgeIR(caller_function_id=…, callee_function_id=…, lineno=…, target=…)`
(ir_build.py lines 457-464), omitting the `caller_symbol_id` and
`callee_symbol_id` parameters that the dataclass declares without defaults
(ir_model.py lines 35-48).  In Python this constructor call raises
`TypeError`; the embedding models the call as failing. -/
def callEdgeFromBuilder (_callerFunctionId : Int) (_calleeFunctionId : Option Int)
    (_lineno : Int) (_target : Str) : Except String CallEdgeIR :=
  .error ("TypeError: CallEdgeIR.__init__() missing 2 required positional arguments: "
    ++ "caller_symbol_id and callee_symbol_id")

/-- First pass (ir_build.py lines 248-283): one `ModuleIR` per successfully
parsed file, in discovery order.  The input models the (path, parsed AST)
pairs surviving the read/parse steps; unreadable and unparsable files are
skipped by the source before this point. -/
def buildModulesPass : List (Str × List PyStmt) → Int → List ModuleIR
  | [], _ => []
  | (path, body) :: rest, moduleId =>
    let modName := moduleNameFromPath path
    let vst := runVisitor moduleId modName body
    { id := moduleId, path := path, module_name := modName, classes := [],
      imports := vst.imports, functions := vst.functions }
      :: buildModulesPass rest (moduleId + 1)

/-- Second pass (ir_build.py lines 285-290): dense repository-wide function
ids.  Note the source assigns only `fn.id`; `module`, `qualname`, `symbol_id`
and `kind` keep their dataclass defaults. -/
def renumberFnList : List FunctionIR → Int → List FunctionIR × Int
  | [], n => ([], n)
  | fn :: rest, n =>
    let (fns, n2) := renumberFnList rest (n + 1)
    ({ fn with id := n } :: fns, n2)

def renumberModules : List ModuleIR → Int → List ModuleIR
  | [], _ => []
  | m :: rest, n =>
    let (fns, n2) := renumberFnList m.functions n
    { m with functions := fns } :: renumberModules rest n2

/-- `function_by_qualified` (ir_build.py lines 292-296). -/
def mkFunctionByQualified (modules : List ModuleIR) : List (Str × FunctionIR) :=
  (modules.flatMap (fun m => m.functions)).foldl
    (fun acc fn => dSet acc fn.qualified_name fn) []

/-- Module import edge pairs (ir_build.py lines 298-310): a set of
(module id, imported module name) pairs. -/
def importEdgePairs (modules : List ModuleIR) : List (Int × Str) :=
  modules.foldl (fun acc m =>
    m.imports.foldl (fun acc2 imp =>
      let importedModule : Option Str :=
        if imp.kind = lit "import" then some imp.name
        else if imp.kind = lit "from" then some (imp.module.getD [])
        else none
      match importedModule with
      | some im =>
        if im.isEmpty then acc2
        else if (m.id, im) ∈ acc2 then acc2 else acc2 ++ [(m.id, im)]
      | none => acc2) acc) []

/-- Python string `<` (code-point lexicographic). -/
def strLe : Str → Str → Bool
  | [], _ => true
  | _ :: _, [] => false
  | a :: as_, b :: bs => if a = b then strLe as_ bs else decide (a.toNat < b.toNat)

/-- A stable insertion sort; for the total preorders used here this computes
the same list as Python's stable `sorted`. -/
def insertSorted {α : Type} (le : α → α → Bool) (x : α) : List α → List α
  | [] => [x]
  | y :: ys => if le x y then x :: y :: ys else y :: insertSorted le x ys

def sortBy {α : Type} (le : α → α → Bool) : List α → List α
  | [] => []
  | x :: xs => insertSorted le x (sortBy le xs)

/-- `sorted(module_import_edge_pairs)` with Python tuple order
(ir_build.py lines 312-315). -/
def pairLe (a b : Int × Str) : Bool :=
  if a.1 = b.1 then strLe a.2 b.2 else decide (a.1 < b.1)

/-- `class_by_id` / `class_by_qualified_name` (ir_build.py lines 319-324). -/
def mkClassById (modules : List ModuleIR) : List (Int × ClassIR) :=
  (modules.flatMap (fun m => m.classes)).foldl (fun acc cls => dSet acc cls.id cls) []

def mkClassByQual (modules : List ModuleIR) : List (Str × ClassIR) :=
  (modules.flatMap (fun m => m.classes)).foldl
    (fun acc cls => dSet acc cls.qualified_name cls) []

/-- Edge loop (ir_build.py lines 326-464). -/
def buildCallEdges (functionByQualified : List (Str × FunctionIR))
    (classById : List (Int × ClassIR)) (classByQual : List (Str × ClassIR))
    (modules : List ModuleIR) : Except String (List CallEdgeIR) :=
  modules.foldlM (fun acc m =>
    m.functions.foldlM (fun acc2 fn =>
      fn.calls.foldlM (fun acc3 call => do
        let calleeId := resolveCallTarget functionByQualified classById classByQual
          m fn call.target
        let edge ← callEdgeFromBuilder fn.id calleeId call.lineno call.target
        .ok (acc3 ++ [edge])) acc2) acc) []

/-- `build_repository_ir` (ir_build.py lines 234-472) over the parsed file
list.  The result omits `build_timestamp` and per-module `file_hash` because
the source never sets them (and ir_build.py defines no `compute_file_hash`,
although status.py, check.py, cli.py and explain.py import one from it). -/
def buildRepositoryIr (root : Str) (files : List (Str × List PyStmt)) :
    Except String RepositoryIR := do
  let modules := renumberModules (buildModulesPass files 0) 0
  let functionByQualified := mkFunctionByQualified modules
  let moduleImportEdges := (sortBy pairLe (importEdgePairs modules)).map
    (fun p => ModuleImportEdgeIR.mk p.1 p.2)
  let classById := mkClassById modules
  let classByQual := mkClassByQual modules
  let callEdges ← buildCallEdges functionByQualified classById classByQual modules
  let out : RepositoryIR :=
    { root := root, modules := modules,
      module_import_edges := moduleImportEdges, call_edges := callEdges }
  .ok out

/-! ## Freshness tracking (status.py) -/

/-- One iteration of `_compute_module_status` (status.py lines 21-40).  The
disk is a map from resolved path to content; a missing entry covers both the
`not curr_path.exists()` and the `OSError` branches.  `hashFn` models
`compute_file_hash`, which status.py imports from ir_build (where it is not
defined); the status only consults it when a stored hash exists. -/
def computeModuleStatusOne (hashFn : Str → Str) (disk : List (Str × Str))
    (root : Str) (module : ModuleIR) : Str :=
  let currPath := root ++ '/' :: module.path
  match dGet disk currPath with
  | none => lit "missing"
  | some content =>
    match module.file_hash with
    | none => lit "unknown"
    | some h =>
      if h.isEmpty then lit "unknown"
      else if hashFn content = h then lit "fresh" else lit "stale"

/-- `_compute_module_status` over all modules. -/
def computeModuleStatus (hashFn : Str → Str) (disk : List (Str × Str))
    (ir : RepositoryIR) : List Str :=
  ir.modules.map (computeModuleStatusOne hashFn disk ir.root)

/-- The exit code computed by `render_status` (status.py line 61): `0` iff no
module is stale or missing. -/
def statusExitCode (statuses : List Str) : Int :=
  if statuses.countP (fun s => s = lit "stale") = 0
      ∧ statuses.countP (fun s => s = lit "missing") = 0 then 0 else 1

/-! ## Concrete inputs for the pipeline claims -/

/-- `Except` projections used in concrete statements. -/
def exOk {α : Type} : Except String α → Option α
  | .ok a => some a
  | .error _ => none

def exErr {α : Type} : Except String α → Option String
  | .ok _ => none
  | .error e => some e

/-- A one-file source tree `m.py` containing `def f(): pass`. -/
def c1Input : List (Str × List PyStmt) :=
  [(lit "m.py", [.functionDef (lit "f") 1 []])]

/-- The repository the stale builder produces for `c1Input`: one module, one
function whose `module`, `qualname` and `symbol_id` keep the dataclass
defaults (empty strings), no hashes, no timestamp. -/
def c1BuiltFn : FunctionIR :=
  { id := 0, module_id := 0, name := lit "f", qualified_name := lit "m.f", lineno := 1 }

def c1BuiltModule : ModuleIR :=
  { id := 0, path := lit "m.py", module_name := lit "m", functions := [c1BuiltFn] }

def c1BuiltRepo : RepositoryIR :=
  { root := lit "/r", modules := [c1BuiltModule] }

/-- A repository IR carrying every field the round-trip contract lists:
build timestamp, module file hash, function kind/signature/docstring and
symbol ids. -/
def c1RichFn : FunctionIR :=
  { id := 0, module_id := 0, name := lit "f", qualified_name := lit "m.f",
    lineno := 1, signature := lit "def f()", docstring := some (lit "doc"),
    module := lit "m", qualname := lit "f", symbol_id := lit "m:f",
    kind := lit "module", is_entrypoint := true }

def c1RichModule : ModuleIR :=
  { id := 0, path := lit "m.py", module_name := lit "m",
    file_hash := some (lit "h"), functions := [c1RichFn] }

def c1RichRepo : RepositoryIR :=
  { root := lit "/r", build_timestamp := some (lit "T"), modules := [c1RichModule] }

/-- C1: the serializer/parser pair does not satisfy the round-trip contract.
For the repository built from the one-file tree `c1Input`, parsing the
serialized text yields functions whose `symbol_id` is the recomputed
`m:f` while the built repository holds the dataclass default `""`, so
`parse(serialize(R)) ≠ R`; and for a repository carrying a build timestamp,
file hash, `kind = "module"`, docstring and signature, every one of those
fields is dropped by the writer and comes back defaulted. -/
theorem C1_roundtrip_loses_fields :
    exOk (buildRepositoryIr (lit "/r") c1Input) = some c1BuiltRepo
  ∧ (exOk (repositoryIrFromToon (repositoryIrToToon c1BuiltRepo))).map
      (fun ir => (ir.modules.flatMap (fun m => m.functions)).map (fun f => f.symbol_id))
      = some [lit "m:f"]
  ∧ (c1BuiltRepo.modules.flatMap (fun m => m.functions)).map (fun f => f.symbol_id) = [[]]
  ∧ (exOk (repositoryIrFromToon (repositoryIrToToon c1BuiltRepo))).map
      (fun ir => decide (ir = c1BuiltRepo)) = some false
  ∧ c1RichRepo.build_timestamp = some (lit "T")
  ∧ (exOk (repositoryIrFromToon (repositoryIrToToon c1RichRepo))).map
      (fun ir => ir.build_timestamp) = some none
  ∧ c1RichRepo.modules.map (fun m => m.file_hash) = [some (lit "h")]
  ∧ (exOk (repositoryIrFromToon (repositoryIrToToon c1RichRepo))).map
      (fun ir => ir.modules.map (fun m => m.file_hash)) = some [none]
  ∧ (c1RichRepo.modules.flatMap (fun m => m.functions)).map (fun f => f.kind)
      = [lit "module"]
  ∧ (exOk (repositoryIrFromToon (repositoryIrToToon c1RichRepo))).map
      (fun ir => (ir.modules.flatMap (fun m => m.functions)).map (fun f => f.kind))
      = some [lit "function"]
  ∧ (exOk (repositoryIrFromToon (repositoryIrToToon c1RichRepo))).map
      (fun ir => (ir.modules.flatMap (fun m => m.functions)).map
        (fun f => (f.docstring, f.signature))) = some [(none, [])] := by
  refine ⟨by decide, by decide, by decide, by decide, by decide, by decide,
    by decide, by decide, by decide, by decide, by decide⟩

/-- A module body with a function definition, a file-scope call, and a call
under a main-guard-style `if`. -/
def c3Body : List PyStmt :=
  [.functionDef (lit "f") 1 [],
   .exprStmt (.call (.name (lit "f")) [] 3),
   .ifStmt (.name (lit "__name__")) [.exprStmt (.call (.name (lit "f")) [] 5)] []]

/-- C3: the AST extractor emits no module-entry pseudo-function: for a parsed
file with a file-scope call and a call under a main guard, the visitor
produces only the real function (kind `"function"`), no function of kind
`"module"` exists, and neither file-scope call is recorded as a call site of
any function — they are dropped by `visit_Call`'s empty-stack check. -/
theorem C3_no_module_entry_pseudo_function :
    (runVisitor 0 (lit "m") c3Body).functions.map (fun f => f.kind) = [lit "function"]
  ∧ ((runVisitor 0 (lit "m") c3Body).functions.all
      (fun f => decide (f.kind ≠ lit "module"))) = true
  ∧ (runVisitor 0 (lit "m") c3Body).functions.map (fun f => f.calls) = [[]]
  ∧ (runVisitor 0 (lit "m") c3Body).imports = [] := by
  refine ⟨by decide, by decide, by decide, by decide⟩

/-- A one-file tree whose single function contains one call site. -/
def c4Input : List (Str × List PyStmt) :=
  [(lit "m.py", [.functionDef (lit "f") 1 [.exprStmt (.call (.name (lit "g")) [] 2)]])]

/-- C4: on any repository with at least one call site, `build_repository_ir`
produces no call edges at all: the `CallEdgeIR(...)` constructor call omits
the required `caller_symbol_id`/`callee_symbol_id` parameters and raises
`TypeError`, so the build fails instead of yielding one edge per call site. -/
theorem C4_edge_construction_raises :
    exOk (buildRepositoryIr (lit "/r") c4Input) = none
  ∧ exErr (buildRepositoryIr (lit "/r") c4Input)
      = some ("TypeError: CallEdgeIR.__init__() missing 2 required positional arguments: "
        ++ "caller_symbol_id and callee_symbol_id") := by
  refine ⟨by decide, by decide⟩

/-- A one-file tree `pkg/mod.py` containing `def g(): pass`. -/
def c6Input : List (Str × List PyStmt) :=
  [(lit "pkg/mod.py", [.functionDef (lit "g") 1 []])]

/-- C6: the builder never assigns `symbol_id` (nor `module`/`qualname`): for
the one-function tree `c6Input` the built function has `symbol_id = ""`,
which differs from `module + ":" + qualname` (also left at defaults, so
`":"`), refuting the invariant on built repositories.  (The parser, by
contrast, recomputes the id, which is how the two sides of C1 diverge.) -/
theorem C6_symbol_id_not_assigned :
    (exOk (buildRepositoryIr (lit "/r") c6Input)).map
      (fun ir => (ir.modules.flatMap (fun m => m.functions)).map
        (fun f => f.symbol_id)) = some [[]]
  ∧ (exOk (buildRepositoryIr (lit "/r") c6Input)).map
      (fun ir => (ir.modules.flatMap (fun m => m.functions)).map
        (fun f => decide (f.symbol_id = f.module ++ ':' :: f.qualname)))
      = some [false]
  ∧ (exOk (buildRepositoryIr (lit "/r") c6Input)).map
      (fun ir => (ir.modules.flatMap (fun m => m.functions)).map
        (fun f => f.qualified_name)) = some [lit "pkg.mod.g"] := by
  refine ⟨by decide, by decide, by decide⟩

/-- A persisted snapshot whose module carried a file hash at build time. -/
def c7Module : ModuleIR :=
  { id := 0, path := lit "m.py", module_name := lit "m", file_hash := some (lit "h1") }

def c7Repo : RepositoryIR :=
  { root := lit "/r", modules := [c7Module] }

/-- The on-disk state after the source file was modified. -/
def c7Disk : List (Str × Str) := [(lit "/r/m.py", lit "modified content")]

/-- C7: after serializing and re-loading the snapshot, the stored file hash
is gone (the modules table has no `file_hash` column), so `status` reports
the modified module as `unknown` — never `stale` — and exits 0, for every
possible hash function; the claim's stale/exit-1 behaviour is unreachable. -/
theorem C7_status_reports_unknown_not_stale :
    (∀ hashFn : Str → Str,
      (exOk (repositoryIrFromToon (repositoryIrToToon c7Repo))).map
        (fun ir => (computeModuleStatus hashFn c7Disk ir,
          statusExitCode (computeModuleStatus hashFn c7Disk ir)))
        = some ([lit "unknown"], 0))
  ∧ c7Repo.modules.map (fun m => m.file_hash) = [some (lit "h1")] := by
  refine ⟨fun hashFn => by rfl, by decide⟩

/-! ## C5: the resolution order

The six resolution steps, stated separately following the specification's
Phase B description, and the first-success combinator; the claim is that the
builder's inline chain equals trying these steps in this order. -/

/-- Spec step 1: exact match on qualified name. -/
def stepExactQualified (functionByQualified : List (Str × FunctionIR))
    (target : Str) : Option Int :=
  (dGet functionByQualified target).map (fun f => f.id)

/-- Spec step 2: same-module simple-name match. -/
def stepLocalSimple (module : ModuleIR) (target : Str) : Option Int :=
  (module.functions.find? (fun cand => cand.name = target)).map (fun f => f.id)

/-- Spec step 3: when the caller is a method and the target begins with
`self.`, `cls.` or `super(`, walk the owning class's linearized hierarchy
(skipping the owning class itself for `super`) looking for
`<ancestor>.<method>`. -/
def stepSelfHierarchy (functionByQualified : List (Str × FunctionIR))
    (classById : List (Int × ClassIR)) (classByQual : List (Str × ClassIR))
    (module : ModuleIR) (fn : FunctionIR) (target : Str) : Option Int :=
  resolveSelfClsSuper functionByQualified classById classByQual
    (mkClassLookup module) fn target

/-- Spec step 4: a `from M import N` local binding resolved to `<M>.<N>`. -/
def stepFromImport (functionByQualified : List (Str × FunctionIR))
    (module : ModuleIR) (target : Str) : Option Int :=
  match dGet (mkFuncImports module) target with
  | some (importedModule, originalName) =>
    if ¬importedModule.isEmpty then
      (dGet functionByQualified (importedModule ++ '.' :: originalName)).map
        (fun f => f.id)
    else none
  | none => none

/-- Spec step 5: a module-alias attribute `alias.func` resolved to
`<real_module>.func`. -/
def stepModuleAlias (functionByQualified : List (Str × FunctionIR))
    (module : ModuleIR) (target : Str) : Option Int :=
  if target.contains '.' then
    match splitOnceChar '.' target with
    | some (pre, rest) =>
      match dGet (mkModuleAliases module) pre with
      | some importedModule =>
        (dGet functionByQualified
          (importedModule ++ '.' :: beforeFirstDot rest)).map (fun f => f.id)
      | none => none
    | none => none
  else none

/-- Spec step 6: `ClassName.method` for a class known in the module. -/
def stepClassMethod (functionByQualified : List (Str × FunctionIR))
    (module : ModuleIR) (target : Str) : Option Int :=
  if target.contains '.' then
    match splitLastDot target with
    | some (classExpr, methodExpr) =>
      match dGet (mkClassLookup module) classExpr with
      | some cls =>
        (dGet functionByQualified
          (cls.qualified_name ++ '.' :: beforeFirstDot methodExpr)).map (fun f => f.id)
      | none => none
    | none => none
  else none

/-- Try a list of resolution attempts in order, stopping at the first
success. -/
def firstSome : List (Option Int) → Option Int
  | [] => none
  | o :: rest =>
    match o with
    | some x => some x
    | none => firstSome rest

theorem firstSome_chain6 (o1 o2 o3 o4 o5 o6 : Option Int) :
    (match o1 with
     | some i => some i
     | none =>
       match o2 with
       | some i => some i
       | none =>
         match o3 with
         | some i => some i
         | none =>
           match o4 with
           | some i => some i
           | none =>
             match o5 with
             | some i => some i
             | none => o6)
    = firstSome [o1, o2, o3, o4, o5, o6] := by
  cases o1 <;> cases o2 <;> cases o3 <;> cases o4 <;> cases o5 <;> cases o6 <;>
    simp [firstSome]

/-- C5: for every call site the builder's resolution chain attempts exactly
the six steps — exact qualified match, same-module simple name, the
self/cls/super hierarchy walk, `from`-import binding, module-alias attribute,
and `ClassName.method` — in that order, stopping at the first success. -/
theorem C5_resolution_step_order (functionByQualified : List (Str × FunctionIR))
    (classById : List (Int × ClassIR)) (classByQual : List (Str × ClassIR))
    (module : ModuleIR) (fn : FunctionIR) (target : Str) :
    resolveCallTarget functionByQualified classById classByQual module fn target
      = firstSome
          [stepExactQualified functionByQualified target,
           stepLocalSimple module target,
           stepSelfHierarchy functionByQualified classById classByQual module fn target,
           stepFromImport functionByQualified module target,
           stepModuleAlias functionByQualified module target,
           stepClassMethod functionByQualified module target] := by
  rw [← firstSome_chain6]
  rfl

/-! ## Patch-plan schema validation (patch_plan.py, patch_plan_schema.py)

JSON values as parsed by `json.loads`: objects are association lists with the
document's key order (duplicate keys cannot survive `json.loads`).  Python
`bool` is a subtype of `int`; the two constructors stay separate and the
places where the source relies on the subtyping (`isinstance(value, int)`
in the `minimum` check) handle both. -/

inductive JVal where
  | str (s : String)
  | int (n : Int)
  | bool (b : Bool)
  | null
  | arr (items : List JVal)
  | obj (fields : List (String × JVal))

/-- The primitive type names the schema uses. -/
inductive STy where
  | string | integer | boolean | object | array | nullType
deriving DecidableEq

/-- A schema `"type"` entry: a single name or a list of names. -/
inductive TypeSpec where
  | one (t : STy)
  | many (ts : List STy)
deriving DecidableEq

/-- A draft-07-style schema node as the validator consumes it: the fields
`_check_object` reads (`type`, `properties`, `required`, `enum`, `items`,
`minimum`).  `additionalProperties` is never read by the validator and is
omitted. -/
inductive Schema where
  | mk (type : Option TypeSpec) (properties : List (String × Schema))
       (required : List String) (enum : Option (List String))
       (items : Option Schema) (minimum : Option Int)

def Schema.type : Schema → Option TypeSpec
  | .mk t _ _ _ _ _ => t
def Schema.properties : Schema → List (String × Schema)
  | .mk _ p _ _ _ _ => p
def Schema.required : Schema → List String
  | .mk _ _ r _ _ _ => r
def Schema.enum : Schema → Option (List String)
  | .mk _ _ _ e _ _ => e
def Schema.items : Schema → Option Schema
  | .mk _ _ _ _ i _ => i
def Schema.minimum : Schema → Option Int
  | .mk _ _ _ _ _ m => m

/-- `schema.get("items", {})`: the empty schema. -/
def emptySchema : Schema := .mk none [] [] none none none

/-- `_matches_type` (patch_plan.py lines 79-92); note `"integer"` excludes
Python `bool` explicitly. -/
def matchesType (v : JVal) : STy → Bool
  | .string => match v with | .str _ => true | _ => false
  | .integer => match v with | .int _ => true | _ => false
  | .boolean => match v with | .bool _ => true | _ => false
  | .object => match v with | .obj _ => true | _ => false
  | .array => match v with | .arr _ => true | _ => false
  | .nullType => match v with | .null => true | _ => false

/-- The `valid_type` computation (patch_plan.py lines 61-65): a missing
`"type"` makes `_matches_type(value, None)` return `False`. -/
def matchesTypeSpec (v : JVal) : Option TypeSpec → Bool
  | some (.one t) => matchesType v t
  | some (.many ts) => ts.any (matchesType v)
  | none => false

/-- Python `value in subschema["enum"]` for the string enums the schema
holds. -/
def enumContains (v : JVal) (es : List String) : Bool :=
  match v with
  | .str s => es.contains s
  | _ => false

/-- Python `isinstance(value, int)` (true for `bool` as well) together with
the numeric value used in the `minimum` comparison. -/
def pyIntValue : JVal → Option Int
  | .int n => some n
  | .bool b => some (if b then 1 else 0)
  | _ => none

/-- `for key in obj: require key in allowed` (patch_plan.py lines 55-56). -/
def checkKeysAllowed (fields : List (String × JVal)) (allowed : List String) :
    Except String Unit :=
  match fields with
  | [] => .ok ()
  | (k, _) :: rest =>
    if allowed.contains k then checkKeysAllowed rest allowed
    else .error ("has unknown field " ++ k)

/-- `for key in required: require key in obj` (patch_plan.py lines 57-58). -/
def checkRequiredKeys (required : List String) (fields : List (String × JVal)) :
    Except String Unit :=
  match required with
  | [] => .ok ()
  | k :: rest =>
    if (fields.find? (fun p => p.1 = k)).isSome then checkRequiredKeys rest fields
    else .error ("missing required field " ++ k)

/-! `_check_object` (patch_plan.py lines 51-77): key allowlist, required
keys, then per-field type/enum/nested-object/array/minimum checks in source
order, raising at the first failure. -/
mutual
def checkObject (v : JVal) (s : Schema) : Except String Unit :=
  match v with
  | .obj fields => do
    checkKeysAllowed fields (s.properties.map (fun p => p.1))
    checkRequiredKeys s.required fields
    checkFields fields s
  | _ => .error "must be an object"
def checkFields (fields : List (String × JVal)) (s : Schema) : Except String Unit :=
  match fields with
  | [] => .ok ()
  | (key, value) :: rest =>
    match (s.properties.find? (fun p => p.1 = key)).map (fun p => p.2) with
    | none => .error ("KeyError: " ++ key)
    | some sub => do
      (if matchesTypeSpec value sub.type then .ok ()
        else .error (key ++ " has wrong type"))
      (match sub.enum with
       | some es =>
         if enumContains value es then .ok () else .error (key ++ " has invalid value")
       | none => .ok ())
      (if sub.type = some (.one .object) then checkObject value sub else .ok ())
      (if sub.type = some (.one .array) then
        match value with
        | .arr items => checkItems items (sub.items.getD emptySchema)
        | _ => .error (key ++ " must be an array")
       else .ok ())
      (match sub.minimum, pyIntValue value with
       | some m, some n => if n ≥ m then .ok () else .error (key ++ " below minimum")
       | _, _ => .ok ())
      checkFields rest s
def checkItems (items : List JVal) (isub : Schema) : Except String Unit :=
  match items with
  | [] => .ok ()
  | item :: rest => do
    checkObject item isub
    checkItems rest isub
end

/-! ### The patch-plan schema (patch_plan_schema.py lines 6-146) -/

def strSchema : Schema := .mk (some (.one .string)) [] [] none none none
def intSchema : Schema := .mk (some (.one .integer)) [] [] none none none
def boolSchema : Schema := .mk (some (.one .boolean)) [] [] none none none
def lineno1Schema : Schema := .mk (some (.one .integer)) [] [] none none (some 1)

/-- `related_files` items. -/
def relatedFileSchema : Schema :=
  .mk (some (.one .object)) [("path", strSchema)] ["path"] none none none

/-- `callers`/`callees` items. -/
def neighborSchema : Schema :=
  .mk (some (.one .object))
    [("symbol", strSchema), ("module", strSchema), ("file", strSchema),
     ("lineno", lineno1Schema)]
    ["symbol", "module", "file", "lineno"] none none none

def callGraphNeighborsSchema : Schema :=
  .mk (some (.one .object))
    [("target", .mk (some (.many [.string, .nullType])) [] [] none none none),
     ("callers", .mk (some (.one .array)) [] [] none (some neighborSchema) none),
     ("callees", .mk (some (.one .array)) [] [] none (some neighborSchema) none)]
    ["callers", "callees"] none none none

/-- `source_slices` declares only `additionalProperties`, which the validator
never reads: its allowed-property set is empty. -/
def sourceSlicesSchema : Schema := .mk (some (.one .object)) [] [] none none none

def truncationSchema : Schema :=
  .mk (some (.one .object))
    [("applied", boolSchema), ("reason", strSchema),
     ("functions_included", .mk (some (.one .integer)) [] [] none none (some 0))]
    [] none none none

def targetSchema : Schema :=
  .mk (some (.one .object))
    [("symbol", strSchema), ("kind", strSchema), ("lineno", lineno1Schema)]
    ["symbol", "kind", "lineno"] none none none

/-- The operation item schema; note `end_lineno` is listed in `required`
(its key must be present) while its type admits `null`. -/
def opItemSchema : Schema :=
  .mk (some (.one .object))
    [("id", strSchema),
     ("op", .mk (some (.one .string)) [] []
        (some ["insert_before", "insert_after", "replace_range", "append_to_function"])
        none none),
     ("enabled", boolSchema),
     ("file", strSchema),
     ("symbol", strSchema),
     ("lineno", lineno1Schema),
     ("end_lineno", .mk (some (.many [.integer, .nullType])) [] [] none none (some 1)),
     ("description", strSchema),
     ("code", strSchema)]
    ["id", "op", "enabled", "file", "symbol", "lineno", "end_lineno",
     "description", "code"] none none none

/-- `PATCH_PLAN_SCHEMA` (patch_plan_schema.py lines 6-146). -/
def PATCH_PLAN_SCHEMA : Schema :=
  .mk (some (.one .object))
    [("version", intSchema),
     ("engine_version", strSchema),
     ("repo_root", strSchema),
     ("file", strSchema),
     ("module", strSchema),
     ("fix", strSchema),
     ("related_files", .mk (some (.one .array)) [] [] none (some relatedFileSchema) none),
     ("call_graph_neighbors", callGraphNeighborsSchema),
     ("source_slices", sourceSlicesSchema),
     ("truncation", truncationSchema),
     ("target", targetSchema),
     ("operations", .mk (some (.one .array)) [] [] none (some opItemSchema) none)]
    ["version", "engine_version", "repo_root", "file", "module", "fix",
     "target", "operations"] none none none

/-! ### `load_patch_plan` (patch_plan.py lines 97-166) -/

/-- `PlanTarget` (patch_plan.py lines 11-17). -/
structure PlanTarget where
  symbol : String
  kind : String
  file : String
  lineno : Int
  end_lineno : Option Int := none
deriving DecidableEq

/-- `PlanOperation` (patch_plan.py lines 20-27). -/
structure PlanOperation where
  id : String
  op : String
  target : PlanTarget
  code : String
  description : String
  enabled : Bool := true
deriving DecidableEq

/-- `PatchPlan` (patch_plan.py lines 30-38); paths kept as the strings the
JSON carries (`Path(...).resolve()` is filesystem-relative). -/
structure PatchPlan where
  version : Int
  engine_version : String
  repo_root : String
  file : String
  module : String
  fix : String
  operations : List PlanOperation
deriving DecidableEq

def SUPPORTED_OPS : List String :=
  ["insert_before", "insert_after", "replace_range", "append_to_function"]

/-- `data[k]` on a JSON object (`KeyError` otherwise). -/
def jGetD (data : JVal) (k : String) : Except String JVal :=
  match data with
  | .obj fields =>
    match fields.find? (fun p => p.1 = k) with
    | some p => .ok p.2
    | none => .error ("KeyError: " ++ k)
  | _ => .error ("TypeError: not a JSON object")

def asInt : JVal → Except String Int
  | .int n => .ok n
  | _ => .error "TypeError: expected int"

def asStr : JVal → Except String String
  | .str s => .ok s
  | _ => .error "TypeError: expected str"

def asBool : JVal → Except String Bool
  | .bool b => .ok b
  | _ => .error "TypeError: expected bool"

def asArr : JVal → Except String (List JVal)
  | .arr items => .ok items
  | _ => .error "TypeError: expected list"

def asIntOrNull : JVal → Except String (Option Int)
  | .int n => .ok (some n)
  | .null => .ok none
  | _ => .error "TypeError: expected int or null"

/-- One iteration of the operations loop (patch_plan.py lines 119-151), with
`expected_file = None`. -/
def buildOp (opRaw : JVal) : Except String PlanOperation := do
  let opType ← jGetD opRaw "op" >>= asStr
  (if SUPPORTED_OPS.contains opType then .ok ()
   else .error ("invalid op: Unsupported op type: " ++ opType))
  let opId ← jGetD opRaw "id" >>= asStr
  let targetFile ← jGetD opRaw "file" >>= asStr
  let lineno ← jGetD opRaw "lineno" >>= asInt
  let endLineno ← jGetD opRaw "end_lineno" >>= asIntOrNull
  (match endLineno with
   | some e =>
     if e ≥ lineno then .ok ()
     else .error "invalid end_lineno: end_lineno must be >= lineno"
   | none => .ok ())
  let code ← jGetD opRaw "code" >>= asStr
  let enabled ← jGetD opRaw "enabled" >>= asBool
  let description ← jGetD opRaw "description" >>= asStr
  let symbol ← jGetD opRaw "symbol" >>= asStr
  let target : PlanTarget :=
    { symbol := symbol, kind := "function", file := targetFile,
      lineno := lineno, end_lineno := endLineno }
  .ok { id := opId, op := opType, target := target, code := code,
        description := description, enabled := enabled }

/-- `for op_raw in operations_raw` accumulation. -/
def buildOps : List JVal → Except String (List PlanOperation)
  | [] => .ok []
  | opRaw :: rest => do
    let op ← buildOp opRaw
    let ops ← buildOps rest
    .ok (op :: ops)

/-- The `require_filled` pass (patch_plan.py lines 153-156): every enabled
operation must have non-blank code (`op.code.strip()` truthy). -/
def checkFilled : List PlanOperation → Except String Unit
  | [] => .ok ()
  | op :: rest =>
    if op.enabled then
      if ¬(pyStrip op.code.toList).isEmpty then checkFilled rest
      else .error ("Enabled operation " ++ op.id ++ " has empty code")
    else checkFilled rest

/-- `load_patch_plan` (patch_plan.py lines 97-166) on an already-parsed JSON
value, with `expected_file = None`. -/
def loadPatchPlan (data : JVal) (requireFilled : Bool) : Except String PatchPlan := do
  (match data with
   | .obj _ => .ok ()
   | _ => .error "Patch plan must be a JSON object")
  checkObject data PATCH_PLAN_SCHEMA
  let version ← jGetD data "version" >>= asInt
  let repoRoot ← jGetD data "repo_root" >>= asStr
  let fileStr ← jGetD data "file" >>= asStr
  let fix ← jGetD data "fix" >>= asStr
  let _targetRaw ← jGetD data "target"
  let operationsRaw ← jGetD data "operations" >>= asArr
  let operations ← buildOps operationsRaw
  (if requireFilled then checkFilled operations else .ok ())
  let engineVersion ← jGetD data "engine_version" >>= asStr
  let moduleStr ← jGetD data "module" >>= asStr
  .ok { version := version, engine_version := engineVersion, repo_root := repoRoot,
        file := fileStr, module := moduleStr, fix := fix, operations := operations }

/-! ### Inversion lemmas for the validator -/

theorem exBind_ok {α β : Type} {a : Except String α} {f : α → Except String β} {b : β}
    (h : (a >>= f) = .ok b) : ∃ x, a = .ok x ∧ f x = .ok b := by
  cases a with
  | error e => simp [Bind.bind, Except.bind] at h
  | ok x =>
    refine ⟨x, rfl, ?_⟩
    simpa [Bind.bind, Except.bind] using h

theorem checkKeysAllowed_ok {fields : List (String × JVal)} {allowed : List String}
    (h : checkKeysAllowed fields allowed = .ok ()) :
    ∀ p ∈ fields, allowed.contains p.1 = true := by
  induction fields with
  | nil => intro p hp; cases hp
  | cons q rest ih =>
    obtain ⟨k, v⟩ := q
    intro p hp
    simp only [checkKeysAllowed] at h
    by_cases hc : allowed.contains k = true
    · rw [if_pos hc] at h
      rcases List.mem_cons.mp hp with rfl | hmem
      · exact hc
      · exact ih h p hmem
    · rw [if_neg hc] at h
      simp at h

theorem checkRequiredKeys_ok {required : List String} {fields : List (String × JVal)}
    (h : checkRequiredKeys required fields = .ok ()) :
    ∀ k ∈ required, (fields.find? (fun p => p.1 = k)).isSome = true := by
  induction required with
  | nil => intro k hk; cases hk
  | cons r rest ih =>
    intro k hk
    simp only [checkRequiredKeys] at h
    by_cases hc : (fields.find? (fun p => p.1 = r)).isSome = true
    · rw [if_pos hc] at h
      rcases List.mem_cons.mp hk with rfl | hmem
      · exact hc
      · exact ih h k hmem
    · rw [if_neg hc] at h
      simp at h

/-- What a successful `_check_object` guarantees about one field against its
subschema. -/
def FieldOk (v : JVal) (sub : Schema) : Prop :=
  matchesTypeSpec v sub.type = true
  ∧ (∀ es, sub.enum = some es → enumContains v es = true)
  ∧ (sub.type = some (.one .object) → checkObject v sub = .ok ())
  ∧ (sub.type = some (.one .array) →
      ∃ items, v = .arr items ∧ checkItems items (sub.items.getD emptySchema) = .ok ())
  ∧ (∀ m n, sub.minimum = some m → pyIntValue v = some n → m ≤ n)

set_option maxHeartbeats 2000000 in
theorem checkFields_cons_eq (key : String) (value : JVal)
    (rest : List (String × JVal)) (s : Schema) :
    checkFields ((key, value) :: rest) s =
      match (s.properties.find? (fun q => q.1 = key)).map (fun q => q.2) with
      | none => .error ("KeyError: " ++ key)
      | some sub =>
        (if matchesTypeSpec value sub.type then .ok ()
          else .error (key ++ " has wrong type")) >>= fun _ =>
        (match sub.enum with
         | some es =>
           if enumContains value es then .ok () else .error (key ++ " has invalid value")
         | none => .ok ()) >>= fun _ =>
        (if sub.type = some (.one .object) then checkObject value sub else .ok ()) >>= fun _ =>
        (if sub.type = some (.one .array) then
          match value with
          | .arr items => checkItems items (sub.items.getD emptySchema)
          | _ => .error (key ++ " must be an array")
         else .ok ()) >>= fun _ =>
        (match sub.minimum, pyIntValue value with
         | some m, some n => if n ≥ m then .ok () else .error (key ++ " below minimum")
         | _, _ => .ok ()) >>= fun _ =>
        checkFields rest s := by
  rw [checkFields.eq_def]

set_option maxHeartbeats 2000000 in
theorem checkFields_ok {fields : List (String × JVal)} {s : Schema}
    (h : checkFields fields s = .ok ()) :
    ∀ p ∈ fields, ∀ sub,
      (s.properties.find? (fun q => q.1 = p.1)).map (fun q => q.2) = some sub →
        FieldOk p.2 sub := by
  induction fields with
  | nil => intro p hp; cases hp
  | cons kv rest ih =>
    obtain ⟨key, value⟩ := kv
    intro p hp sub hsub
    rw [checkFields_cons_eq] at h
    cases hfind : (s.properties.find? (fun q => q.1 = key)).map (fun q => q.2) with
    | none => rw [hfind] at h; simp at h
    | some sub' =>
      rw [hfind] at h
      obtain ⟨⟨⟩, h1, h⟩ := exBind_ok h
      obtain ⟨⟨⟩, h2, h⟩ := exBind_ok h
      obtain ⟨⟨⟩, h3, h⟩ := exBind_ok h
      obtain ⟨⟨⟩, h4, h⟩ := exBind_ok h
      obtain ⟨⟨⟩, h5, h⟩ := exBind_ok h
      rcases List.mem_cons.mp hp with rfl | hmem
      · dsimp at hsub
        rw [hfind] at hsub
        cases hsub
        refine ⟨?_, ?_, ?_, ?_, ?_⟩
        · by_cases hm : matchesTypeSpec value sub.type = true
          · exact hm
          · rw [if_neg hm] at h1; simp at h1
        · intro es hes
          rw [hes] at h2
          by_cases he : enumContains value es = true
          · exact he
          · simp [he] at h2
        · intro ht
          rwa [if_pos ht] at h3
        · intro ht
          rw [if_pos ht] at h4
          cases value with
          | arr items => exact ⟨items, rfl, h4⟩
          | str a => simp at h4
          | int a => simp at h4
          | bool a => simp at h4
          | null => simp at h4
          | obj a => simp at h4
        · intro m n hm hn
          rw [hm, hn] at h5
          by_cases hge : n ≥ m
          · exact hge
          · simp [hge] at h5
      · exact ih h p hmem sub hsub

theorem checkItems_ok {items : List JVal} {isub : Schema}
    (h : checkItems items isub = .ok ()) :
    ∀ item ∈ items, checkObject item isub = .ok () := by
  induction items with
  | nil => intro i hi; cases hi
  | cons item rest ih =>
    intro i hi
    simp only [checkItems] at h
    obtain ⟨⟨⟩, h1, h⟩ := exBind_ok h
    rcases List.mem_cons.mp hi with rfl | hmem
    · exact h1
    · exact ih h i hmem

theorem checkObject_obj_ok {fields : List (String × JVal)} {s : Schema}
    (h : checkObject (.obj fields) s = .ok ()) :
    checkKeysAllowed fields (s.properties.map (fun q => q.1)) = .ok ()
    ∧ checkRequiredKeys s.required fields = .ok ()
    ∧ checkFields fields s = .ok () := by
  simp only [checkObject] at h
  obtain ⟨⟨⟩, h1, h⟩ := exBind_ok h
  obtain ⟨⟨⟩, h2, h⟩ := exBind_ok h
  exact ⟨h1, h2, h⟩

theorem checkObject_ok_is_obj {v : JVal} {s : Schema}
    (h : checkObject v s = .ok ()) : ∃ fields, v = .obj fields := by
  cases v with
  | obj fields => exact ⟨fields, rfl⟩
  | str a => simp [checkObject] at h
  | int a => simp [checkObject] at h
  | bool a => simp [checkObject] at h
  | null => simp [checkObject] at h
  | arr a => simp [checkObject] at h

theorem jGetD_mem {fields : List (String × JVal)} {k : String} {v : JVal}
    (h : jGetD (.obj fields) k = .ok v) :
    ∃ p, p ∈ fields ∧ p.1 = k ∧ p.2 = v := by
  simp only [jGetD] at h
  cases hf : fields.find? (fun p => p.1 = k) with
  | none => rw [hf] at h; simp at h
  | some p =>
    rw [hf] at h
    simp at h
    have hp := List.find?_some hf
    exact ⟨p, List.mem_of_find?_eq_some hf, by simpa using hp, h⟩

theorem asInt_ok {v : JVal} {n : Int} (h : asInt v = .ok n) : v = .int n := by
  cases v <;> simp [asInt] at h <;> simp [h]

theorem asArr_ok {v : JVal} {items : List JVal} (h : asArr v = .ok items) :
    v = .arr items := by
  cases v <;> simp [asArr] at h <;> simp [h]

theorem asIntOrNull_ok_some {v : JVal} {e : Int} (h : asIntOrNull v = .ok (some e)) :
    v = .int e := by
  cases v <;> simp [asIntOrNull] at h <;> simp [h]

theorem buildOp_ok_facts {raw : JVal} {op : PlanOperation} (h : buildOp raw = .ok op) :
    op.op ∈ SUPPORTED_OPS
    ∧ jGetD raw "lineno" = .ok (.int op.target.lineno)
    ∧ (∀ e, op.target.end_lineno = some e →
        op.target.lineno ≤ e ∧ jGetD raw "end_lineno" = .ok (.int e)) := by
  simp only [buildOp] at h
  obtain ⟨opType, h1, h⟩ := exBind_ok h
  obtain ⟨⟨⟩, h2, h⟩ := exBind_ok h
  obtain ⟨opId, h3, h⟩ := exBind_ok h
  obtain ⟨targetFile, h4, h⟩ := exBind_ok h
  obtain ⟨lineno, h5, h⟩ := exBind_ok h
  obtain ⟨endLineno, h6, h⟩ := exBind_ok h
  obtain ⟨⟨⟩, h7, h⟩ := exBind_ok h
  obtain ⟨code, h8, h⟩ := exBind_ok h
  obtain ⟨enabled, h9, h⟩ := exBind_ok h
  obtain ⟨description, h10, h⟩ := exBind_ok h
  obtain ⟨symbol, h11, h⟩ := exBind_ok h
  simp only [Except.ok.injEq] at h
  subst h
  obtain ⟨v5, hv5, hint5⟩ := exBind_ok h5
  obtain ⟨v6, hv6, hion6⟩ := exBind_ok h6
  refine ⟨?_, ?_, ?_⟩
  · by_cases hc : SUPPORTED_OPS.contains opType = true
    · simpa using hc
    · rw [if_neg hc] at h2; simp at h2
  · have := asInt_ok hint5
    subst this
    exact hv5
  · intro e he
    simp only at he
    subst he
    have := asIntOrNull_ok_some hion6
    subst this
    refine ⟨?_, hv6⟩
    by_cases hge : e ≥ lineno
    · exact hge
    · simp [hge] at h7

theorem buildOps_mem {items : List JVal} {ops : List PlanOperation}
    (h : buildOps items = .ok ops) :
    ∀ op ∈ ops, ∃ raw, raw ∈ items ∧ buildOp raw = .ok op := by
  induction items generalizing ops with
  | nil =>
    simp only [buildOps, Except.ok.injEq] at h
    subst h
    intro op hop
    cases hop
  | cons raw rest ih =>
    simp only [buildOps] at h
    obtain ⟨op1, h1, h⟩ := exBind_ok h
    obtain ⟨ops', h2, h⟩ := exBind_ok h
    simp only [Except.ok.injEq] at h
    subst h
    intro op hop
    rcases List.mem_cons.mp hop with rfl | hmem
    · exact ⟨raw, List.mem_cons_self raw rest, h1⟩
    · obtain ⟨r, hr, hb⟩ := ih h2 op hmem
      exact ⟨r, List.mem_cons_of_mem raw hr, hb⟩

theorem checkFilled_ok {ops : List PlanOperation} (h : checkFilled ops = .ok ()) :
    ∀ op ∈ ops, op.enabled = true → (pyStrip op.code.toList).isEmpty = false := by
  induction ops with
  | nil => intro op hop; cases hop
  | cons o rest ih =>
    intro op hop hen
    simp only [checkFilled] at h
    rcases List.mem_cons.mp hop with rfl | hmem
    · rw [if_pos hen] at h
      by_cases hne : (pyStrip op.code.toList).isEmpty = true
      · rw [if_neg (not_not_intro hne)] at h
        simp at h
      · simpa using hne
    · by_cases he : o.enabled = true
      · rw [if_pos he] at h
        by_cases hne : (pyStrip o.code.toList).isEmpty = true
        · rw [if_neg (not_not_intro hne)] at h
          simp at h
        · rw [if_pos (by simpa using hne)] at h
          exact ih h op hmem hen
      · rw [if_neg he] at h
        exact ih h op hmem hen

theorem loadPatchPlan_ok {data : JVal} {rf : Bool} {plan : PatchPlan}
    (h : loadPatchPlan data rf = .ok plan) :
    checkObject data PATCH_PLAN_SCHEMA = .ok ()
    ∧ ∃ items, jGetD data "operations" = .ok (.arr items)
        ∧ buildOps items = .ok plan.operations
        ∧ (rf = true → checkFilled plan.operations = .ok ()) := by
  simp only [loadPatchPlan] at h
  obtain ⟨⟨⟩, h0, h⟩ := exBind_ok h
  obtain ⟨⟨⟩, hschema, h⟩ := exBind_ok h
  obtain ⟨version, hv, h⟩ := exBind_ok h
  obtain ⟨repoRoot, hr, h⟩ := exBind_ok h
  obtain ⟨fileStr, hfile, h⟩ := exBind_ok h
  obtain ⟨fix, hfix, h⟩ := exBind_ok h
  obtain ⟨targetRaw, htarget, h⟩ := exBind_ok h
  obtain ⟨operationsRaw, hopsraw, h⟩ := exBind_ok h
  obtain ⟨operations, hops, h⟩ := exBind_ok h
  obtain ⟨⟨⟩, hfilled, h⟩ := exBind_ok h
  obtain ⟨engineVersion, heng, h⟩ := exBind_ok h
  obtain ⟨moduleStr, hmod, h⟩ := exBind_ok h
  simp only [Except.ok.injEq] at h
  subst h
  obtain ⟨vops, hvops, hasarr⟩ := exBind_ok hopsraw
  have := asArr_ok hasarr
  subst this
  refine ⟨hschema, operationsRaw, hvops, hops, ?_⟩
  intro hrf
  subst hrf
  rwa [if_pos rfl] at hfilled

/-! ### C8 concrete plans -/

/-- An `insert_before` operation object with every field except `end_lineno`. -/
def c8OpNoEnd : JVal := .obj
  [("id", .str "op-1"), ("op", .str "insert_before"), ("enabled", .bool true),
   ("file", .str "m.py"), ("symbol", .str "m.f"), ("lineno", .int 3),
   ("description", .str "d"), ("code", .str "x = 1")]

/-- The same operation with `end_lineno` present and null. -/
def c8OpNullEnd : JVal := .obj
  [("id", .str "op-1"), ("op", .str "insert_before"), ("enabled", .bool true),
   ("file", .str "m.py"), ("symbol", .str "m.f"), ("lineno", .int 3),
   ("end_lineno", .null), ("description", .str "d"), ("code", .str "x = 1")]

/-- A full plan document around a given operations list. -/
def c8PlanFieldsWith (ops : List JVal) : List (String × JVal) :=
  [("version", .int 1), ("engine_version", .str "1.0"), ("repo_root", .str "/r"),
   ("file", .str "m.py"), ("module", .str "m"), ("fix", .str "do it"),
   ("target", .obj [("symbol", .str "m.f"), ("kind", .str "function"),
     ("lineno", .int 1)]),
   ("operations", .arr ops)]

def c8PlanFields : List (String × JVal) := c8PlanFieldsWith [c8OpNullEnd]

def c8AcceptedData : JVal := .obj c8PlanFields

/-- The parsed target for `c8OpNullEnd`. -/
def c8AcceptedTarget : PlanTarget :=
  { symbol := "m.f", kind := "function", file := "m.py", lineno := 3,
    end_lineno := none }

/-- The parsed operation `load_patch_plan` produces for `c8OpNullEnd`. -/
def c8AcceptedOp : PlanOperation :=
  { id := "op-1", op := "insert_before", target := c8AcceptedTarget,
    code := "x = 1", description := "d", enabled := true }

/-- The parsed plan for `c8AcceptedData`. -/
def c8AcceptedPlan : PatchPlan :=
  { version := 1, engine_version := "1.0", repo_root := "/r", file := "m.py",
    module := "m", fix := "do it", operations := [c8AcceptedOp] }

/-- C8 counterexample: an `insert_before` operation without an `end_lineno`
field does not validate — the schema lists `end_lineno` among the required
keys of every operation — while the identical operation with `end_lineno`
present and null is accepted. -/
theorem C8_counterexample :
    exErr (loadPatchPlan (.obj (c8PlanFieldsWith [c8OpNoEnd])) false)
      = some "missing required field end_lineno"
  ∧ (exOk (loadPatchPlan (.obj (c8PlanFieldsWith [c8OpNoEnd])) false)).isNone = true
  ∧ (exOk (loadPatchPlan c8AcceptedData false)).isSome = true := by
  refine ⟨by decide, by decide, by decide⟩

/-- C8 (amended): patch-plan validation is closed-world — an accepted plan
has no key outside the schema's property set and every required top-level
field present; every accepted operation's `op` is one of the four enumerated
values, its `lineno` is at least 1, and its `end_lineno`, which must be
present as a key but may be null for any operation (an `insert_before`
without the key is rejected, see the counterexample), satisfies
`lineno ≤ end_lineno` and `1 ≤ end_lineno` whenever it is an integer; and
when apply is requested every enabled operation has non-blank code. -/
theorem C8_validation_closed_world :
    (∀ (fields : List (String × JVal)) (rf : Bool) (plan : PatchPlan),
      loadPatchPlan (.obj fields) rf = .ok plan →
      ∀ p ∈ fields,
        ((PATCH_PLAN_SCHEMA.properties.map (fun q => q.1)).contains p.1) = true)
  ∧ (∀ (fields : List (String × JVal)) (rf : Bool) (plan : PatchPlan),
      loadPatchPlan (.obj fields) rf = .ok plan →
      ∀ k ∈ PATCH_PLAN_SCHEMA.required,
        (fields.find? (fun p => p.1 = k)).isSome = true)
  ∧ (∀ (data : JVal) (rf : Bool) (plan : PatchPlan),
      loadPatchPlan data rf = .ok plan →
      ∀ op ∈ plan.operations,
        op.op ∈ SUPPORTED_OPS ∧ 1 ≤ op.target.lineno
        ∧ (∀ e, op.target.end_lineno = some e → op.target.lineno ≤ e ∧ 1 ≤ e))
  ∧ (∀ (data : JVal) (plan : PatchPlan),
      loadPatchPlan data true = .ok plan →
      ∀ op ∈ plan.operations, op.enabled = true → pyStrip op.code.toList ≠ []) := by
  refine ⟨?_, ?_, ?_, ?_⟩
  · intro fields rf plan h p hp
    obtain ⟨hschema, -⟩ := loadPatchPlan_ok h
    obtain ⟨hkeys, -, -⟩ := checkObject_obj_ok hschema
    exact checkKeysAllowed_ok hkeys p hp
  · intro fields rf plan h k hk
    obtain ⟨hschema, -⟩ := loadPatchPlan_ok h
    obtain ⟨-, hreq, -⟩ := checkObject_obj_ok hschema
    exact checkRequiredKeys_ok hreq k hk
  · intro data rf plan h op hop
    obtain ⟨hschema, items, hjget, hbuild, -⟩ := loadPatchPlan_ok h
    obtain ⟨fields, rfl⟩ := checkObject_ok_is_obj hschema
    obtain ⟨praw, hpraw, hbop⟩ := buildOps_mem hbuild op hop
    obtain ⟨q, hqmem, hqk, hqv⟩ := jGetD_mem hjget
    obtain ⟨-, -, hfieldsOk⟩ := checkObject_obj_ok hschema
    have hsub : (PATCH_PLAN_SCHEMA.properties.find? (fun r => r.1 = q.1)).map
        (fun r => r.2)
        = some (.mk (some (.one .array)) [] [] none (some opItemSchema) none) := by
      rw [hqk]; rfl
    have hFO := checkFields_ok hfieldsOk q hqmem _ hsub
    obtain ⟨-, -, -, harr, -⟩ := hFO
    obtain ⟨items', hveq, hitems⟩ := harr rfl
    rw [hqv] at hveq
    injection hveq with hitemseq
    subst hitemseq
    have hobjitem := checkItems_ok hitems praw hpraw
    obtain ⟨ofields, rfl⟩ := checkObject_ok_is_obj hobjitem
    obtain ⟨-, -, hItemFields⟩ := checkObject_obj_ok hobjitem
    obtain ⟨hopmem, hlineno, hend⟩ := buildOp_ok_facts hbop
    obtain ⟨ql, hqlmem, hqlk, hqlv⟩ := jGetD_mem hlineno
    have hsubl : (opItemSchema.properties.find? (fun r => r.1 = ql.1)).map
        (fun r => r.2) = some lineno1Schema := by
      rw [hqlk]; rfl
    have hFOl := checkFields_ok hItemFields ql hqlmem _ hsubl
    obtain ⟨-, -, -, -, hminl⟩ := hFOl
    refine ⟨hopmem, ?_, ?_⟩
    · exact hminl 1 op.target.lineno rfl (by rw [hqlv]; rfl)
    · intro e he
      obtain ⟨hle, hjgete⟩ := hend e he
      obtain ⟨qe, hqemem, hqek, hqev⟩ := jGetD_mem hjgete
      have hsube : (opItemSchema.properties.find? (fun r => r.1 = qe.1)).map
          (fun r => r.2)
          = some (.mk (some (.many [.integer, .nullType])) [] [] none none (some 1)) := by
        rw [hqek]; rfl
      have hFOe := checkFields_ok hItemFields qe hqemem _ hsube
      obtain ⟨-, -, -, -, hmine⟩ := hFOe
      exact ⟨hle, hmine 1 e rfl (by rw [hqev]; rfl)⟩
  · intro data plan h op hop hen
    obtain ⟨-, -, -, -, hfilled⟩ := loadPatchPlan_ok h
    have := checkFilled_ok (hfilled rfl) op hop hen
    simpa using this

/-- C8 witness: the amended validation facts applied to the concrete accepted
plan `c8AcceptedData` (with `end_lineno: null`) and its fields. -/
theorem exOk_eq_some {α : Type} {e : Except String α} {a : α}
    (h : exOk e = some a) : e = .ok a := by
  cases e with
  | ok b =>
    simp only [exOk, Option.some.injEq] at h
    rw [h]
  | error msg => simp [exOk] at h

theorem C8_validation_witness :
    ((PATCH_PLAN_SCHEMA.properties.map (fun q => q.1)).contains "version" = true)
  ∧ ((c8PlanFields.find? (fun p => p.1 = "version")).isSome = true)
  ∧ (c8AcceptedOp.op ∈ SUPPORTED_OPS ∧ 1 ≤ c8AcceptedOp.target.lineno
      ∧ (∀ e, c8AcceptedOp.target.end_lineno = some e →
          c8AcceptedOp.target.lineno ≤ e ∧ 1 ≤ e))
  ∧ pyStrip c8AcceptedOp.code.toList ≠ [] := by
  have hload : loadPatchPlan c8AcceptedData false = .ok c8AcceptedPlan :=
    exOk_eq_some (by decide)
  have hloadT : loadPatchPlan c8AcceptedData true = .ok c8AcceptedPlan :=
    exOk_eq_some (by decide)
  refine ⟨?_, ?_, ?_, ?_⟩
  · exact C8_validation_closed_world.1 c8PlanFields false c8AcceptedPlan hload
      ("version", .int 1) (List.mem_cons_self _ _)
  · exact C8_validation_closed_world.2.1 c8PlanFields false c8AcceptedPlan hload
      "version" (List.mem_cons_self _ _)
  · exact C8_validation_closed_world.2.2.1 c8AcceptedData false c8AcceptedPlan hload
      c8AcceptedOp (List.mem_cons_self _ _)
  · exact C8_validation_closed_world.2.2.2 c8AcceptedData c8AcceptedPlan hloadT
      c8AcceptedOp (List.mem_cons_self _ _) (by decide)

/-! ## Patch application (patch.py) and the api.py wrapper -/

/-- `PatchResult` (patch.py lines 14-26). -/
structure PatchResult where
  file : Str
  description : Str
  target_function : Option Str
  inserted_line : Int
  inserted_text : Str
  summary : Str
  diff : Option Str := none
  warnings : List Str := []
  no_change : Bool := false
deriving DecidableEq

/-- Python `min(functions, key=lambda f: f.lineno)`: first minimum. -/
def minByLineno : List FunctionIR → Option FunctionIR
  | [] => none
  | f :: rest =>
    match minByLineno rest with
    | none => some f
    | some g => if f.lineno ≤ g.lineno then some f else some g

/-- `_select_target_function` (patch.py lines 238-254); an empty `target`
string is falsy and falls through to the module-level choice. -/
def selectTargetFunction (module : ModuleIR) (target : Option Str) :
    Option FunctionIR :=
  let functions := module.functions
  let fallback :=
    let moduleLevel := functions.filter (fun fn => fn.parent_class_id = none)
    if ¬moduleLevel.isEmpty then minByLineno moduleLevel
    else if ¬functions.isEmpty then minByLineno functions
    else none
  match target with
  | some t =>
    if ¬t.isEmpty then
      functions.find? (fun fn =>
        fn.qualified_name = t ∨ fn.name = t ∨ strEndsWith fn.qualified_name t)
    else fallback
  | none => fallback

/-- The TODO fallback branch of `apply_patch` (patch.py lines 195-235),
reached when neither the guard nor the inject strategy inserted anything
(e.g. `strategy="todo"`).  `renderDiff` models `_render_diff`/difflib.  The
second component is the text written to the file, `none` when nothing is
written (noop or `dry_run`). -/
def applyPatchFallback (renderDiff : List Str → List Str → Str) (file : Str)
    (fixDescription : Str) (targetFn : Option FunctionIR) (source : Str)
    (dryRun : Bool) (warnings : List Str) : PatchResult × Option Str :=
  let lines := splitlines source
  let comment := lit "# TODO(neurocode): " ++ fixDescription
  match lines.enum.find? (fun p => pyStrip p.2 = comment) with
  | some (idx, _) =>
    ({ file := file, description := fixDescription,
       target_function := targetFn.map (fun f => f.qualified_name),
       inserted_line := (idx : Int) + 1, inserted_text := comment,
       summary := lit "todo already present", diff := none,
       warnings := warnings, no_change := true }, none)
  | none =>
    let insertAt : Nat :=
      match lines with
      | l :: _ => if strStartsWith l (lit "#!") then 1 else 0
      | [] => 0
    let working := lines.take insertAt ++ [comment] ++ lines.drop insertAt
    let newText0 := joinSep '\n' working
    let newText :=
      if strEndsWith source (lit "\n") ∨ source.isEmpty then newText0 ++ ['\n']
      else newText0
    let diffText := renderDiff lines working
    ({ file := file, description := fixDescription,
       target_function := targetFn.map (fun f => f.qualified_name),
       inserted_line := (insertAt : Int) + 1, inserted_text := comment,
       summary := lit "todo inserted at top of file", diff := some diffText,
       warnings := warnings, no_change := false },
     if dryRun then none else some newText)

/-- A Python keyword-argument call: an unexpected keyword raises `TypeError`
before the callee's body runs. -/
def callWithKeywords {α : Type} (accepted given : List String)
    (run : Unit → Except String α) : Except String α :=
  match given.find? (fun k => ¬accepted.contains k) with
  | some k =>
    .error ("TypeError: apply_patch_from_disk() got an unexpected keyword argument "
      ++ k)
  | none => run ()

/-- The keyword parameters `apply_patch_from_disk` accepts
(patch.py lines 29-37). -/
def applyPatchFromDiskKeywords : List String :=
  ["file", "fix_description", "strategy", "target", "dry_run",
   "require_fresh_ir", "require_target"]

/-- The keyword arguments `NeurocodeProject.patch_file` passes to it
(api.py lines 505-515), including `inject_kind` and `inject_message`. -/
def patchFileCall {α : Type} (run : Unit → Except String α) : Except String α :=
  callWithKeywords applyPatchFromDiskKeywords
    ["fix_description", "strategy", "target", "require_target", "dry_run",
     "require_fresh_ir", "inject_kind", "inject_message"] run

/-- C9 evidence: (1) the api-level patch entry point crashes with `TypeError`
for every underlying computation, because it passes `inject_kind` to an
`apply_patch_from_disk` that does not accept it — so no noop status or exit
code 3 can be surfaced through `NeurocodeProject.patch_file`; (2) the patch
core itself, on a file already containing the TODO comment, reports
`no_change = true` with no diff and writes nothing; (3) with `dry_run` the
fallback never writes the file, for every input. -/
theorem C9_patch_noop_behaviour :
    (∀ (α : Type) (run : Unit → Except String α),
      patchFileCall run
        = .error ("TypeError: apply_patch_from_disk() got an unexpected keyword "
            ++ "argument inject_kind"))
  ∧ (∀ (renderDiff : List Str → List Str → Str) (dryRun : Bool),
      (applyPatchFallback renderDiff (lit "m.py") (lit "check input") none
        (lit "# TODO(neurocode): check input\nx = 1\n") dryRun []).1.no_change = true
      ∧ (applyPatchFallback renderDiff (lit "m.py") (lit "check input") none
          (lit "# TODO(neurocode): check input\nx = 1\n") dryRun []).1.diff = none
      ∧ (applyPatchFallback renderDiff (lit "m.py") (lit "check input") none
          (lit "# TODO(neurocode): check input\nx = 1\n") dryRun []).2 = none)
  ∧ (∀ (renderDiff : List Str → List Str → Str) (file fix : Str)
      (targetFn : Option FunctionIR) (source : Str) (warnings : List Str),
      (applyPatchFallback renderDiff file fix targetFn source true warnings).2
        = none) := by
  refine ⟨?_, ?_, ?_⟩
  · intro α run
    rfl
  · intro renderDiff dryRun
    refine ⟨rfl, rfl, rfl⟩
  · intro renderDiff file fix targetFn source warnings
    simp only [applyPatchFallback]
    cases (splitlines source).enum.find?
        (fun p => pyStrip p.2 = lit "# TODO(neurocode): " ++ fix) with
    | none => simp
    | some p => simp

/-! ## Semantic search (search.py) -/

/-- `EmbeddingItem` as `search.py` consumes it. -/
structure EmbeddingItem where
  id : Str
  kind : Str
  module : Str
  name : Str
  file : Str
  lineno : Int
  signature : Str
  embedding : List ℚ
deriving DecidableEq

/-- `SearchResult` (search.py lines 14-23); scores are modelled over `ℚ`
with `math.sqrt` an explicit function parameter. -/
structure SearchResult where
  id : Str
  kind : Str
  module : Str
  name : Str
  file : Str
  lineno : Int
  signature : Str
  score : ℚ
deriving DecidableEq

/-- `sum(x * x for x in a)`. -/
def sumSquares (a : List ℚ) : ℚ := (a.map (fun x => x * x)).foldl (· + ·) 0

/-- `_cosine_similarity` (search.py lines 26-34): mismatched lengths or an
empty vector score 0.0 before any arithmetic, then a zero norm scores 0.0
before the division. -/
def cosineSimilarity (sqrt : ℚ → ℚ) (a b : List ℚ) : ℚ :=
  if a.length ≠ b.length ∨ a = [] ∨ b = [] then 0
  else
    let dot := ((a.zip b).map (fun p => p.1 * p.2)).foldl (· + ·) 0
    let normA := sqrt (sumSquares a)
    let normB := sqrt (sumSquares b)
    if normA = 0 ∨ normB = 0 then 0 else dot / (normA * normB)

/-- `_filter_items` (search.py lines 37-44); an empty filter string is falsy
and keeps everything. -/
def filterItems (items : List EmbeddingItem) (moduleFilter : Option Str) :
    List EmbeddingItem :=
  match moduleFilter with
  | none => items
  | some m =>
    if m.isEmpty then items
    else items.filter (fun item =>
      item.module = m ∨ strStartsWith item.module (m ++ ['.']))

/-- Python `scored[:k]` for an `int` bound. -/
def pySliceTo {α : Type} (k : Int) (l : List α) : List α :=
  if 0 ≤ k then l.take k.toNat else l.take (l.length - (-k).toNat)

/-- `search_embeddings` (search.py lines 55-83): score all function items,
sort stably by descending score, return the first `k`. -/
def searchEmbeddings (sqrt : ℚ → ℚ) (store : List EmbeddingItem)
    (queryEmbedding : List ℚ) (moduleFilter : Option Str) (k : Int) :
    List SearchResult :=
  let candidates := store.filter (fun item => item.kind = lit "function")
  let candidates := filterItems candidates moduleFilter
  let scored := candidates.map (fun item =>
    { id := item.id, kind := item.kind, module := item.module, name := item.name,
      file := item.file, lineno := item.lineno, signature := item.signature,
      score := cosineSimilarity sqrt queryEmbedding item.embedding : SearchResult })
  let sorted := sortBy (fun r1 r2 => r2.score ≤ r1.score) scored
  pySliceTo k sorted

/-- C10: cosine scoring is total — mismatched lengths, empty vectors, and
zero norms all score 0.0 instead of raising — and `search_embeddings`
returns at most `k` results for every store, query vector, module filter and
square-root function. -/
theorem C10_cosine_total_search_bounded :
    (∀ (sqrt : ℚ → ℚ) (a b : List ℚ),
      a.length ≠ b.length ∨ a = [] ∨ b = [] → cosineSimilarity sqrt a b = 0)
  ∧ (∀ (sqrt : ℚ → ℚ) (a b : List ℚ),
      sqrt (sumSquares a) = 0 ∨ sqrt (sumSquares b) = 0 →
        cosineSimilarity sqrt a b = 0)
  ∧ (∀ (sqrt : ℚ → ℚ) (store : List EmbeddingItem) (qe : List ℚ)
      (mf : Option Str) (k : Int), 0 ≤ k →
        (searchEmbeddings sqrt store qe mf k).length ≤ k.toNat) := by
  refine ⟨?_, ?_, ?_⟩
  · intro sqrt a b h
    simp only [cosineSimilarity]
    rw [if_pos h]
  · intro sqrt a b h
    simp only [cosineSimilarity]
    by_cases hg : a.length ≠ b.length ∨ a = [] ∨ b = []
    · rw [if_pos hg]
    · rw [if_neg hg, if_pos h]
  · intro sqrt store qe mf k hk
    simp only [searchEmbeddings, pySliceTo, if_pos hk]
    exact List.length_take_le _ _

/-- C10 witness: the totality facts at concrete vectors and a concrete
search call. -/
theorem C10_cosine_witness :
    cosineSimilarity (fun q => q) [1] [] = 0
  ∧ cosineSimilarity (fun _ => 0) [1] [1] = 0
  ∧ (searchEmbeddings (fun q => q) [] [] none 2).length ≤ 2 := by
  refine ⟨?_, ?_, ?_⟩
  · exact C10_cosine_total_search_bounded.1 (fun q => q) [1] []
      (Or.inr (Or.inr rfl))
  · exact C10_cosine_total_search_bounded.2.1 (fun _ => 0) [1] [1] (Or.inl rfl)
  · exact C10_cosine_total_search_bounded.2.2 (fun q => q) [] [] none 2 (by decide)

end Neurocode
